import Mathlib

/-!
# Tic-tac-toe server: session state machine and matchmaking pool

A shallow embedding of `models/game.go`, `managers/game.go`,
`managers/match_makeing.go`, `models/packet.go` and the move and play cases
of `managers/websocket.go`.

Conventions of the embedding

* A Go pointer `*models.User` is a `UserPtr`: `none` is `nil`, `some u` is a
  live record, and `u.addr` is the address, so that pointer equality is
  equality of `UserPtr`.
* A Go map is an association list; an operation that reads a key takes the
  first entry with it.  That no key occurs twice is the hypothesis `KeysNodup`
  where a statement needs it.
* `*models.Game` values are held by value inside the directory: an in-place
  mutation through the pointer is a `storeAt` under the same key.  The
  directory never holds one `*Game` under two keys (keys are always the game's
  own `ID`).
* A channel is a cell of a `ChanHeap`; a channel value is the index of its
  cell.
* What the dispatcher writes is a list of messages, each with its `Sink`.
  The `Conn` field of a user record is not modelled: `player.SendMessage` is
  a message to that user.  Packets are kept as records; JSON is not modelled.
* A function that can hit a Go run-time panic (index out of range, nil
  dereference) returns `Option`: `none` is the panic.
* A Go `error` is an `Option String`: `none` is `nil`, `some msg` is
  `errors.New(msg)`.
* Go `int` coordinates are `Int`; no arithmetic is done on them.
* Mutexes are not modelled: every operation below runs as one atomic step.
-/

namespace TicTacToe

/-! ## utils/constants.go -/

def GameStateWaiting : String := "waiting"
def GameStateInProgress : String := "in_progress"
def GameStateCompleted : String := "completed"
def GameStateDraw : String := "draw"

/-! ## models/user.go -/

/-- The record behind a `*models.User`; `addr` stands for the pointer identity.
The connection, statistics and mutex fields play no part in the operations
embedded here. -/
structure User where
  addr : Nat
  Username : String
  DeviceID : String
deriving DecidableEq, Repr

/-- A `*models.User`: `none` is the nil pointer. -/
abbrev UserPtr := Option User

/-! ## models/game.go -/

/-- The Go array type `[3][3]string`. -/
abbrev Grid := Mathlib.Vector (Mathlib.Vector String 3) 3

/-- The element `board[r][c]` at indices known to be in range. -/
def Grid.cell (b : Grid) (r c : Fin 3) : String := (b.get r).get c

/-- The array after `board[r][c] = v` at indices known to be in range. -/
def Grid.put (b : Grid) (r c : Fin 3) (v : String) : Grid := b.set r ((b.get r).set c v)

/-- The array with the given three rows. -/
def Grid.ofRows (a0 a1 a2 b0 b1 b2 c0 c1 c2 : String) : Grid :=
  ⟨[⟨[a0, a1, a2], rfl⟩, ⟨[b0, b1, b2], rfl⟩, ⟨[c0, c1, c2], rfl⟩], rfl⟩

/-- The zero value `[3][3]string{}`. -/
def Grid.empty : Grid := Grid.ofRows "" "" "" "" "" "" "" "" ""

/-- Go's checked indexing `board[row][col]` with `int` indices: `none` is the
index-out-of-range panic. -/
def Grid.index (b : Grid) (row col : Int) : Option String :=
  if h : 0 ≤ row ∧ row < 3 ∧ 0 ≤ col ∧ col < 3 then
    some (b.cell ⟨row.toNat, by omega⟩ ⟨col.toNat, by omega⟩)
  else none

/-- Go's checked assignment `board[row][col] = v`: `none` is the
index-out-of-range panic. -/
def Grid.assign (b : Grid) (row col : Int) (v : String) : Option Grid :=
  if h : 0 ≤ row ∧ row < 3 ∧ 0 ≤ col ∧ col < 3 then
    some (b.put ⟨row.toNat, by omega⟩ ⟨col.toNat, by omega⟩ v)
  else none

/-- The struct `models.Game` (without its mutex). -/
structure Game where
  ID : String
  Players : List UserPtr
  Board : Grid
  CurrentTurn : String
  Status : String
  Winner : String
deriving DecidableEq

/-- `NewGame(player1, player2)`; `gameID` is the value `utils.GenerateGameID()`
returned (a random UUID string). -/
def NewGame (gameID : String) (player1 player2 : UserPtr) : Game :=
  { ID := gameID
    Players := [player1, player2]
    Board := Grid.empty
    CurrentTurn := "X"
    Status := GameStateInProgress
    Winner := "" }

/-- `(*Game).IsPlayerCurrent`; `none` is the panic of `g.Players[i]` on a
slice that is too short. -/
def Game.IsPlayerCurrent (g : Game) (player : UserPtr) : Option Bool := do
  let p0 ← g.Players[0]?
  if p0 = player then
    return decide ("X" = g.CurrentTurn)
  else
    let p1 ← g.Players[1]?
    if p1 = player then
      return decide ("O" = g.CurrentTurn)
    else
      return false

/-- `(*Game).IsValidMove`: the outer `Option` is a panic, the inner one the
returned `error`. -/
def Game.IsValidMove (g : Game) (row col : Int) : Option (Option String) :=
  if row < 0 ∨ row ≥ 3 ∨ col < 0 ∨ col ≥ 3 then
    some (some "move out of bounds")
  else do
    let cell ← g.Board.index row col
    if cell ≠ "" then
      return some "cell already occupied"
    else
      return none

/-- `(*Game).UpdateWinState`; `none` is the nil dereference of
`player.Username`. -/
def Game.UpdateWinState (g : Game) (player : UserPtr) : Option Game := do
  let u ← player
  return { g with Winner := u.Username, Status := GameStateCompleted }

/-- `(*Game).UpdateDrawState`. -/
def Game.UpdateDrawState (g : Game) : Game :=
  { g with Status := GameStateCompleted, Winner := GameStateDraw }

/-- `(*Game).UpdateBoard`; `none` is the index-out-of-range panic. -/
def Game.UpdateBoard (g : Game) (row col : Int) (turn : String) : Option Game := do
  let b ← g.Board.assign row col turn
  return { g with Board := b }

/-! ## managers/game.go -/

/-- The struct `GameManager`: the map `games` from game id to game. -/
structure GameManager where
  games : List (String × Game)
deriving DecidableEq

/-- `NewGameManager()`. -/
def NewGameManager : GameManager := { games := [] }

/-- The map read `m.games[gameID]`. -/
def GameManager.lookup (m : GameManager) (gameID : String) : Option Game :=
  (m.games.find? (fun e => e.1 = gameID)).map Prod.snd

/-- Writes `g` under an existing key (the effect of mutating through the
pointer held in the map). -/
def storeAt (gameID : String) (g : Game) : List (String × Game) → List (String × Game)
  | [] => []
  | e :: rest => if e.1 = gameID then (gameID, g) :: rest else e :: storeAt gameID g rest

/-- The map write `m.games[gameID] = g`: replaces the entry of an existing
key, adds one otherwise. -/
def GameManager.insert (m : GameManager) (gameID : String) (g : Game) : GameManager :=
  if (m.lookup gameID).isSome then { games := storeAt gameID g m.games }
  else { games := m.games ++ [(gameID, g)] }

/-- The game ids present in the directory. -/
def GameManager.ids (m : GameManager) : List String := m.games.map Prod.fst

/-- `(*GameManager).CreateGame`; `now` is `time.Now().UnixNano()`. -/
def GameManager.CreateGame (m : GameManager) (now : Int) (player1 player2 : UserPtr) :
    Game × GameManager :=
  let gameID := "game_" ++ toString now
  let game : Game :=
    { ID := gameID
      Players := [player1, player2]
      Board := Grid.empty
      CurrentTurn := "X"
      Status := "in_progress"
      Winner := "" }
  (game, m.insert gameID game)

/-- The loop of `checkWin` over `i = 0, 1, 2`, with its two early returns. -/
def checkWin.loop (board : Grid) (playerSymbol : String) : List (Fin 3) → Bool
  | [] => false
  | i :: rest =>
    if board.cell i 0 = playerSymbol ∧ board.cell i 1 = playerSymbol ∧ board.cell i 2 = playerSymbol then true
    else if board.cell 0 i = playerSymbol ∧ board.cell 1 i = playerSymbol ∧ board.cell 2 i = playerSymbol then true
    else checkWin.loop board playerSymbol rest

/-- `(*GameManager).checkWin`. -/
def checkWin (board : Grid) (playerSymbol : String) : Bool :=
  if checkWin.loop board playerSymbol [0, 1, 2] then true
  else if board.cell 0 0 = playerSymbol ∧ board.cell 1 1 = playerSymbol ∧ board.cell 2 2 = playerSymbol then true
  else if board.cell 0 2 = playerSymbol ∧ board.cell 1 1 = playerSymbol ∧ board.cell 2 0 = playerSymbol then true
  else false

/-- `(*GameManager).checkDraw`: `false` as soon as a cell is empty. -/
def checkDraw (board : Grid) : Bool :=
  !([0, 1, 2].any fun i : Fin 3 => [0, 1, 2].any fun j : Fin 3 => decide (board.cell i j = ""))

/-- `(*GameManager).toggleTurn`. -/
def toggleTurn (currentTurn : String) : String :=
  if currentTurn = "X" then "O" else "X"

/-- `(*GameManager).UpdateGame`.  The result is `none` on a run-time panic,
otherwise the returned pair `(*Game, error)` and the directory afterwards. -/
def GameManager.UpdateGame (m : GameManager) (gameID : String) (player : UserPtr)
    (row col : Int) : Option ((Option Game × Option String) × GameManager) :=
  match m.lookup gameID with
  | none => some ((none, some "game not found"), m)
  | some game => do
    let cur ← game.IsPlayerCurrent player
    if !cur then
      return ((none, some "not your turn"), m)
    else
      match ← game.IsValidMove row col with
      | some err => return ((none, some err), m)
      | none =>
        let game ← game.UpdateBoard row col game.CurrentTurn
        if checkWin game.Board game.CurrentTurn then
          let game ← game.UpdateWinState player
          return ((some game, none), { games := storeAt gameID game m.games })
        else if checkDraw game.Board then
          let game := game.UpdateDrawState
          return ((some game, none), { games := storeAt gameID game m.games })
        else
          let game := { game with CurrentTurn := toggleTurn game.CurrentTurn }
          return ((some game, none), { games := storeAt gameID game m.games })

/-! ## managers/match_makeing.go -/

/-- A buffered `chan *models.Game`: its capacity and the values sent and not
yet received, oldest first. -/
structure Chan where
  cap : Nat
  buf : List Game
deriving DecidableEq

/-- The channels made so far.  A channel value, as stored in the pool or held
in a local variable, is the index of its cell here. -/
structure ChanHeap where
  chans : List Chan
deriving DecidableEq

/-- The call `make(chan *models.Game, cap)`: a fresh empty channel. -/
def ChanHeap.make (h : ChanHeap) (cap : Nat) : Nat × ChanHeap :=
  (h.chans.length, { chans := h.chans ++ [{ cap := cap, buf := [] }] })

/-- The statement `ch <- game`.  `none` when the buffer is full: with no
receiver the sender would block. -/
def ChanHeap.send (h : ChanHeap) (ch : Nat) (game : Game) : Option ChanHeap :=
  match h.chans[ch]? with
  | none => none
  | some c =>
    if c.buf.length < c.cap then
      some { chans := h.chans.set ch { c with buf := c.buf ++ [game] } }
    else none

/-- The struct `MatchmakingManager`: the map `matchmaking` from waiting user
to that user's channel. -/
structure MatchmakingManager where
  matchmaking : List (UserPtr × Nat)
deriving DecidableEq

/-- `NewMatchmakingManager()`. -/
def NewMatchmakingManager : MatchmakingManager := { matchmaking := [] }

/-- The statement `delete(m.matchmaking, user)`. -/
def MatchmakingManager.delete (m : MatchmakingManager) (user : UserPtr) : MatchmakingManager :=
  { matchmaking := m.matchmaking.filter (fun e => e.1 ≠ user) }

/-- The statement `m.matchmaking[user] = ch`: replaces the channel of an
existing key, adds an entry otherwise. -/
def MatchmakingManager.assign (m : MatchmakingManager) (user : UserPtr) (ch : Nat) :
    MatchmakingManager :=
  if m.matchmaking.any (fun e => e.1 = user) then
    { matchmaking := m.matchmaking.map (fun e => if e.1 = user then (user, ch) else e) }
  else
    { matchmaking := m.matchmaking ++ [(user, ch)] }

/-- How `RequestMatch` arrives at its `select`, if it does. -/
inductive MatchStep where
  /-- returned `(game, nil)` from inside the loop over the pool -/
  | paired (game : Game)
  /-- registered `matchChan` for the caller and now waits in the `select` -/
  | waiting (matchChan : Nat)
deriving DecidableEq

/-- `(*MatchmakingManager).RequestMatch` from its first line up to the
`select`: the pairing step.  `gameID` is what `utils.GenerateGameID()` returns
inside `NewGame`.  Go does not fix the order in which `range` visits a map, so
`pick` names the entry the loop meets first (entry `pick % len`); with an empty
pool the loop body does not run.  `none` means a channel send blocked. -/
def MatchmakingManager.RequestMatch_enter (m : MatchmakingManager) (h : ChanHeap)
    (user : UserPtr) (gameID : String) (pick : Nat) :
    Option (MatchStep × MatchmakingManager × ChanHeap) :=
  let (matchChan, h) := h.make (m.matchmaking.length + 1)
  match m.matchmaking[pick % m.matchmaking.length]? with
  | some (opponent, oppChan) => do
    let m := m.delete opponent
    let game := NewGame gameID user opponent
    let h ← h.send matchChan game
    let h ← h.send oppChan game
    return (MatchStep.paired game, m, h)
  | none =>
    let m := m.assign user matchChan
    some (MatchStep.waiting matchChan, m, h)

/-- The invariant of a Go map: no key occurs twice. -/
def MatchmakingManager.KeysNodup (m : MatchmakingManager) : Prop :=
  (m.matchmaking.map Prod.fst).Nodup

/-- Every waiting ticket holds a channel of the heap with room for a value.
(A ticket's channel is made with capacity at least 1 and is sent to only by
the call that removes the ticket.) -/
def MatchmakingManager.ChansReady (m : MatchmakingManager) (h : ChanHeap) : Prop :=
  ∀ e ∈ m.matchmaking, ∃ c, h.chans[e.2]? = some c ∧ c.buf.length < c.cap

instance (m : MatchmakingManager) : Decidable m.KeysNodup := by
  unfold MatchmakingManager.KeysNodup; infer_instance

instance (m : MatchmakingManager) (h : ChanHeap) : Decidable (m.ChansReady h) := by
  unfold MatchmakingManager.ChansReady; infer_instance

/-- Which case of the `select` that ends `RequestMatch` fires. -/
inductive SelectCase where
  /-- the case `game := <-matchChan` -/
  | received
  /-- the case `<-time.After(120 * time.Second)` -/
  | timeout
  /-- the case `<-ctx.Done()`; `ctxErr` is the error `ctx.Err()` then returns -/
  | cancelled (ctxErr : String)
deriving DecidableEq

/-- The expression `<-ch`: the oldest value of the buffer.  `none` when the
buffer is empty: with no sender the receiver would block. -/
def ChanHeap.recv (h : ChanHeap) (ch : Nat) : Option (Game × ChanHeap) :=
  match h.chans[ch]? with
  | none => none
  | some c =>
    match c.buf with
    | [] => none
    | game :: rest => some (game, { chans := h.chans.set ch { c with buf := rest } })

/-- `(*MatchmakingManager).RequestMatch` from its `select` on, run on the pool
and heap as they are when the case `ev` fires; `matchChan` is the channel the
call registered.  The result is the returned pair `(*Game, error)` with the
pool and heap afterwards; `none` means the chosen case was not ready. -/
def MatchmakingManager.RequestMatch_select (m : MatchmakingManager) (h : ChanHeap)
    (user : UserPtr) (matchChan : Nat) (ev : SelectCase) :
    Option ((Option Game × Option String) × MatchmakingManager × ChanHeap) :=
  match ev with
  | SelectCase.received => do
    let (game, h) ← h.recv matchChan
    return ((some game, none), m, h)
  | SelectCase.timeout =>
    let m := m.delete user
    some ((none, none), m, h)
  | SelectCase.cancelled ctxErr =>
    let m := m.delete user
    some ((none, some ctxErr), m, h)

/-! ## utils/constants.go, packet types -/

def ConnectPacketType : String := "connect"
def PlayPacketType : String := "play"
def MovePacketType : String := "move"
def GameStartPacketType : String := "gameStart"
def UserStatsPacketType : String := "userStats"
def NoMatchFoundType : String := "noMatchFound"
def ErrorPacketType : String := "error"

/-! ## models/packet.go

The embedded `BasePacket` of each packet struct is its field `Typ` (the Go
field is named `Type`). -/

/-- The struct `BasePacket`. -/
structure BasePacket where
  Typ : String
deriving DecidableEq

/-- The struct `PlayPacket`. -/
structure PlayPacket where
  Typ : String
  Username : String
deriving DecidableEq

/-- The struct `MovePacket`. -/
structure MovePacket where
  Typ : String
  GameID : String
  Row : Int
  Col : Int
deriving DecidableEq

/-- The struct `GameUpdatePacket`. -/
structure GameUpdatePacket where
  Typ : String
  GameID : String
  Board : Grid
  CurrentTurn : Bool
  Winner : String
  Status : String
deriving DecidableEq

/-- The struct `MatchFoundPacket`. -/
structure MatchFoundPacket where
  Typ : String
  GameID : String
  Opponent : String
  YourSymbol : String
  YourTurn : Bool
deriving DecidableEq

/-- The struct `ErrorPacket`. -/
structure ErrorPacket where
  Typ : String
  Message : String
deriving DecidableEq

/-- The struct `GameEndPacket`. -/
structure GameEndPacket where
  Typ : String
  GameID : String
  Winner : String
  Outcome : String
deriving DecidableEq

/-- A packet handed to `json.Marshal` and then written out. -/
inductive Message where
  | base (p : BasePacket)
  | gameUpdate (p : GameUpdatePacket)
  | matchFound (p : MatchFoundPacket)
  | error (p : ErrorPacket)
  | gameEnd (p : GameEndPacket)
deriving DecidableEq

/-- Where a message is written: `conn.WriteMessage` on a connection, or
`player.SendMessage`, which writes to the connection the user record holds. -/
inductive Sink where
  | conn (c : Nat)
  | user (u : User)
deriving DecidableEq

/-- `(*User).SendMessage`; `none` is the nil dereference on a nil user. -/
def SendMessage (player : UserPtr) (msg : Message) : Option (Sink × Message) := do
  let u ← player
  return (Sink.user u, msg)

/-! ## managers/user.go -/

/-- The struct `UserManager`: the map `users` from username to user. -/
structure UserManager where
  users : List (String × User)
deriving DecidableEq

/-- `(*UserManager).GetUser`: the returned pair `(*User, error)`. -/
def UserManager.GetUser (m : UserManager) (username : String) : UserPtr × Option String :=
  match m.users.find? (fun e => e.1 = username) with
  | some e => (some e.2, none)
  | none => (none, some "user not found")

/-! ## managers/websocket.go -/

/-- The struct `WebSocketManager`: the map `clients` from connection to user
and the three managers it points to. -/
structure WebSocketManager where
  clients : List (Nat × UserPtr)
  userManager : UserManager
  gameManager : GameManager
  matchmakingManager : MatchmakingManager
deriving DecidableEq

/-- `(*WebSocketManager).sendError`: the message written to `conn`. -/
def sendError (conn : Nat) (errorMsg : String) : Sink × Message :=
  (Sink.conn conn, Message.error { Typ := ErrorPacketType, Message := errorMsg })

/-- `(*WebSocketManager).sendNoMatchFound`: the message written to `conn`. -/
def sendNoMatchFound (conn : Nat) : Sink × Message :=
  (Sink.conn conn, Message.base { Typ := NoMatchFoundType })

/-- `(*WebSocketManager).sendGameEndWinPacket`. -/
def sendGameEndWinPacket (player : UserPtr) (gameID winner : String) : Option (Sink × Message) :=
  SendMessage player
    (Message.gameEnd { Typ := "gameEnd", GameID := gameID, Winner := winner, Outcome := "win" })

/-- `(*WebSocketManager).sendGameEndLosePacket`. -/
def sendGameEndLosePacket (player : UserPtr) (gameID winner : String) : Option (Sink × Message) :=
  SendMessage player
    (Message.gameEnd { Typ := "gameEnd", GameID := gameID, Winner := winner, Outcome := "lose" })

/-- The first loop of `notifyGameUpdate`: one "gameUpdate" per player. -/
def notifyGameUpdate.loop (game : Game) : List UserPtr → Option (List (Sink × Message))
  | [] => some []
  | player :: rest => do
    let cur ← game.IsPlayerCurrent player
    let sent ← SendMessage player
      (Message.gameUpdate
        { Typ := "gameUpdate", GameID := game.ID, Board := game.Board, CurrentTurn := cur,
          Winner := game.Winner, Status := game.Status })
    let more ← notifyGameUpdate.loop game rest
    return sent :: more

/-- `(*WebSocketManager).notifyGameUpdate`: the messages written, in order;
`none` is a run-time panic. -/
def notifyGameUpdate (game : Game) : Option (List (Sink × Message)) := do
  let updates ← notifyGameUpdate.loop game game.Players
  if game.Status = GameStateCompleted then
    let p0 ← game.Players[0]?
    let u0 ← p0
    let (winner, loser) ←
      if game.Winner = u0.Username then do
        let p1 ← game.Players[1]?
        pure (p0, p1)
      else do
        let p1 ← game.Players[1]?
        pure (p1, p0)
    let w ← winner
    let m1 ← sendGameEndWinPacket winner game.ID w.Username
    let m2 ← sendGameEndLosePacket loser game.ID w.Username
    return updates ++ [m1, m2]
  else
    return updates

/-- `(*WebSocketManager).notifyGameStart`: the messages written, in order. -/
def notifyGameStart (game : Game) : Option (List (Sink × Message)) :=
  match game.Players with
  | [p0, p1] => do
    let u0 ← p0
    let u1 ← p1
    let m0 ← SendMessage p0
      (Message.matchFound
        { Typ := GameStartPacketType, GameID := game.ID, Opponent := u1.Username,
          YourSymbol := "X", YourTurn := decide (game.CurrentTurn = "X") })
    let m1 ← SendMessage p1
      (Message.matchFound
        { Typ := GameStartPacketType, GameID := game.ID, Opponent := u0.Username,
          YourSymbol := "O", YourTurn := decide (game.CurrentTurn = "O") })
    return [m0, m1]
  | _ => some []

/-- The move case of `(*WebSocketManager).handleMessages` for a decoded
packet: the messages written and the manager afterwards. -/
def WebSocketManager.handleMove (wsm : WebSocketManager) (conn : Nat) (packet : MovePacket) :
    Option (List (Sink × Message) × WebSocketManager) :=
  match wsm.clients.find? (fun e => e.1 = conn) with
  | none => some ([sendError conn "User not registered"], wsm)
  | some (_, user) => do
    let ((game, err), gm) ← wsm.gameManager.UpdateGame packet.GameID user packet.Row packet.Col
    let wsm := { wsm with gameManager := gm }
    match err with
    | some _ => return ([sendError conn "Invalid move or not your turn"], wsm)
    | none =>
      match game with
      | some game =>
        let out ← notifyGameUpdate game
        return (out, wsm)
      | none => return ([sendNoMatchFound conn], wsm)

/-- The loop of the play case over `wsm.gameManager.games`: every session one
of whose players has the user's device id is notified again.  The `continue`
in the loop body goes on with the next session.  The list order stands for
the order in which `range` visits the map. -/
def scanGames (user : User) : List (String × Game) → Option (List (Sink × Message))
  | [] => some []
  | (_, game) :: rest => do
    let p0 ← game.Players[0]?
    let u0 ← p0
    let hit ←
      if u0.DeviceID = user.DeviceID then pure true
      else do
        let p1 ← game.Players[1]?
        let u1 ← p1
        pure (decide (u1.DeviceID = user.DeviceID))
    if hit then
      let out ← notifyGameUpdate game
      let more ← scanGames user rest
      return out ++ more
    else
      scanGames user rest

/-- What the play case does with the pair `RequestMatch` returned. -/
def WebSocketManager.afterRequestMatch (wsm : WebSocketManager) (conn : Nat)
    (res : Option Game × Option String) : Option (List (Sink × Message) × WebSocketManager) :=
  match res with
  | (_, some _) => some ([sendError conn "Error in matchmaking"], wsm)
  | (some game, none) => do
    let wsm := { wsm with gameManager := wsm.gameManager.insert game.ID game }
    let out ← notifyGameStart game
    return (out, wsm)
  | (none, none) => some ([sendNoMatchFound conn], wsm)

/-- Where the play case stands when this step of the model ends. -/
inductive PlayStep where
  /-- the case is over and the loop reads the next message -/
  | done
  /-- the goroutine waits in the `select` of `RequestMatch` on `matchChan` -/
  | waiting (user : UserPtr) (matchChan : Nat)
deriving DecidableEq

/-- The play case of `(*WebSocketManager).handleMessages` for a decoded
packet, up to the point where `RequestMatch` returns or starts to wait.
`gameID` and `pick` are passed on to the pairing step. -/
def WebSocketManager.handlePlay (wsm : WebSocketManager) (h : ChanHeap) (conn : Nat)
    (packet : PlayPacket) (gameID : String) (pick : Nat) :
    Option (List (Sink × Message) × PlayStep × WebSocketManager × ChanHeap) :=
  match wsm.userManager.GetUser packet.Username with
  | (_, some _) => some ([sendError conn "User not registered"], PlayStep.done, wsm, h)
  | (none, none) => none
  | (some user, none) => do
    let notes ← scanGames user wsm.gameManager.games
    let (step, mm, h) ← wsm.matchmakingManager.RequestMatch_enter h (some user) gameID pick
    let wsm := { wsm with matchmakingManager := mm }
    match step with
    | MatchStep.paired game =>
      let (out, wsm) ← wsm.afterRequestMatch conn (some game, none)
      return (notes ++ out, PlayStep.done, wsm, h)
    | MatchStep.waiting matchChan =>
      return (notes, PlayStep.waiting (some user) matchChan, wsm, h)

/-! ## Specification-side predicates -/

/-- The participant holding the seat whose mark is the current turn, in the
words of the specification: first seat with turn "X", or second seat with
turn "O". -/
def Game.SeatHasTurn (g : Game) (player : UserPtr) : Prop :=
  (g.Players[0]? = some player ∧ g.CurrentTurn = "X") ∨
  (g.Players[1]? = some player ∧ g.CurrentTurn = "O")

/-- Some row, column or diagonal of the board consists entirely of `mark`, in
the words of the specification. -/
def HasLine (b : Grid) (mark : String) : Prop :=
  (∃ i : Fin 3, ∀ j : Fin 3, b.cell i j = mark) ∨
  (∃ j : Fin 3, ∀ i : Fin 3, b.cell i j = mark) ∨
  (∀ i : Fin 3, b.cell i i = mark) ∨
  (∀ i : Fin 3, b.cell i i.rev = mark)

/-- The coordinates lie in `[0,3)`. -/
def InBounds (row col : Int) : Prop := 0 ≤ row ∧ row < 3 ∧ 0 ≤ col ∧ col < 3

/-- The session after `UpdateBoard` wrote the turn mark at an in-range cell. -/
def Game.place (g : Game) (r c : Fin 3) : Game :=
  { g with Board := g.Board.put r c g.CurrentTurn }

instance (g : Game) (player : UserPtr) : Decidable (g.SeatHasTurn player) := by
  unfold Game.SeatHasTurn; infer_instance

instance (b : Grid) (mark : String) : Decidable (HasLine b mark) := by
  unfold HasLine; infer_instance

instance (row col : Int) : Decidable (InBounds row col) := by
  unfold InBounds; infer_instance

/-- Runs a sequence of `UpdateGame` calls, each on the directory the previous
one left; `none` if one of them panics. -/
def GameManager.play (m : GameManager) : List (String × UserPtr × Int × Int) → Option GameManager
  | [] => some m
  | (gameID, player, row, col) :: rest =>
    match m.UpdateGame gameID player row col with
    | none => none
    | some (_, m') => m'.play rest

/-- The nine cells of the board, row by row. -/
def Grid.cells (b : Grid) : List String :=
  [b.cell 0 0, b.cell 0 1, b.cell 0 2, b.cell 1 0, b.cell 1 1, b.cell 1 2,
   b.cell 2 0, b.cell 2 1, b.cell 2 2]

/-- The number of cells holding `mark`. -/
def Grid.count (b : Grid) (mark : String) : Nat := b.cells.count mark

/-- A session as `NewGame` or `CreateGame` hands it out. -/
def Game.Fresh (g : Game) : Prop :=
  (∃ (gameID : String) (p1 p2 : UserPtr), g = NewGame gameID p1 p2) ∨
  (∃ (m : GameManager) (now : Int) (p1 p2 : UserPtr), g = (m.CreateGame now p1 p2).1)

/-- The turn is "X" or "O", every cell is "", "X" or "O", and the board holds
as many "X" as "O" when "X" is to move and one more when "O" is to move. -/
def Game.TurnInv (g : Game) : Prop :=
  (g.CurrentTurn = "X" ∨ g.CurrentTurn = "O") ∧
  (∀ r c : Fin 3, g.Board.cell r c = "" ∨ g.Board.cell r c = "X" ∨ g.Board.cell r c = "O") ∧
  (g.CurrentTurn = "X" → (g.Board.count "X" : Int) - (g.Board.count "O" : Int) = 0) ∧
  (g.CurrentTurn = "O" → (g.Board.count "X" : Int) - (g.Board.count "O" : Int) = 1)

instance (g : Game) : Decidable g.TurnInv := by
  unfold Game.TurnInv; infer_instance

/-! ## Concrete data used by the worked examples -/

def alice : User := { addr := 1, Username := "alice", DeviceID := "d1" }
def bob : User := { addr := 2, Username := "bob", DeviceID := "d2" }
def carol : User := { addr := 3, Username := "carol", DeviceID := "d3" }

/-- The board `[[X,X,""],[O,O,""],["","",""]]`. -/
def boardXXOO : Grid := Grid.ofRows "X" "X" "" "O" "O" "" "" "" ""

def gameXXOO : Game :=
  { ID := "g1", Players := [some alice, some bob], Board := boardXXOO,
    CurrentTurn := "X", Status := GameStateInProgress, Winner := "" }

def dirXXOO : GameManager := { games := [("g1", gameXXOO)] }

/-- The session `gameXXOO` after "X" was placed at (0,2): row 0 is complete. -/
def gameXXOO_won : Game :=
  { gameXXOO with
    Board := Grid.ofRows "X" "X" "X" "O" "O" "" "" "" "",
    Status := "completed", Winner := "alice" }

def dirXXOO_won : GameManager := { games := [("g1", gameXXOO_won)] }

/-- The session `gameXXOO` after "X" was placed at (2,2): play goes on. -/
def gameXXOO_on : Game :=
  { gameXXOO with
    Board := Grid.ofRows "X" "X" "" "O" "O" "" "" "" "X",
    CurrentTurn := "O" }

def dirXXOO_on : GameManager := { games := [("g1", gameXXOO_on)] }

/-- The completed session `gameXXOO_won` after one more "X" at (2,2). -/
def gameXXOO_extra : Game :=
  { gameXXOO_won with Board := Grid.ofRows "X" "X" "X" "O" "O" "" "" "" "X" }

/-- A session one move from a draw: only (2,2) is empty and "X" is to move. -/
def gameLastCell : Game :=
  { ID := "g2", Players := [some alice, some bob],
    Board := Grid.ofRows "X" "O" "X" "X" "O" "O" "O" "X" "",
    CurrentTurn := "X", Status := GameStateInProgress, Winner := "" }

def gameLastCell_drawn : Game :=
  { gameLastCell with
    Board := Grid.ofRows "X" "O" "X" "X" "O" "O" "O" "X" "X",
    Status := "completed", Winner := "draw" }

/-- A directory with two sessions. -/
def dirTwo : GameManager := { games := [("g1", gameXXOO), ("g2", gameLastCell)] }

def dirTwo_drawn : GameManager := { games := [("g1", gameXXOO), ("g2", gameLastCell_drawn)] }

/-- A directory holding one session freshly made by `CreateGame` at clock
reading 7. -/
def dirFresh : GameManager := (NewGameManager.CreateGame 7 (some alice) (some bob)).2

/-- Five legal moves after which "X" has completed row 0. -/
def movesToWin : List (String × UserPtr × Int × Int) :=
  [("game_7", some alice, 0, 0), ("game_7", some bob, 1, 0), ("game_7", some alice, 0, 1),
   ("game_7", some bob, 1, 1), ("game_7", some alice, 0, 2)]

/-- The session of `dirFresh` after `movesToWin`. -/
def gameWon7 : Game := { gameXXOO_won with ID := "game_7" }

/-- The session `gameWon7` after one more "X" at (2,2). -/
def gameExtra7 : Game := { gameXXOO_extra with ID := "game_7" }


/-- A pool in which only alice waits, on channel 0. -/
def poolAlice : MatchmakingManager := { matchmaking := [(some alice, 0)] }

/-- The heap holding alice's empty channel of capacity 1. -/
def heapAlice : ChanHeap := { chans := [{ cap := 1, buf := [] }] }

/-- A pool in which bob and carol wait, on channels 0 and 1. -/
def poolBobCarol : MatchmakingManager := { matchmaking := [(some bob, 0), (some carol, 1)] }

def heapBobCarol : ChanHeap := { chans := [{ cap := 1, buf := [] }, { cap := 2, buf := [] }] }

/-- Three calls on the fresh session: a move by "X", a rejected second move by
the same player, a move by "O". -/
def movesOpening : List (String × UserPtr × Int × Int) :=
  [("game_7", some alice, 0, 0), ("game_7", some alice, 1, 1), ("game_7", some bob, 1, 1)]

/-- The session of `dirFresh` after `movesOpening`. -/
def gameOpening7 : Game :=
  { ID := "game_7", Players := [some alice, some bob],
    Board := Grid.ofRows "X" "" "" "" "O" "" "" "" "",
    CurrentTurn := "X", Status := "in_progress", Winner := "" }

/-- The three users as the user manager holds them. -/
def usersABC : UserManager :=
  { users := [("alice", alice), ("bob", bob), ("carol", carol)] }

/-- A server on which alice (connection 1) and bob (connection 2) play the
session `gameXXOO`, in progress, and nobody waits for a match. -/
def wsmPlaying : WebSocketManager :=
  { clients := [(1, some alice), (2, some bob)], userManager := usersABC,
    gameManager := dirXXOO, matchmakingManager := NewMatchmakingManager }

/-- The "gameUpdate" packet for session `g` as its player sees it. -/
def updateOf (g : Game) (yourTurn : Bool) : Message :=
  Message.gameUpdate
    { Typ := "gameUpdate", GameID := g.ID, Board := g.Board, CurrentTurn := yourTurn,
      Winner := g.Winner, Status := g.Status }

/-- The server `wsmPlaying` with carol waiting for a match on channel 0. -/
def wsmCarolWaits : WebSocketManager :=
  { wsmPlaying with matchmakingManager := { matchmaking := [(some carol, 0)] } }

/-- The "gameEnd" packet of session `gameID`. -/
def gameEndOf (gameID winner outcome : String) : Message :=
  Message.gameEnd { Typ := "gameEnd", GameID := gameID, Winner := winner, Outcome := outcome }

/-- The "gameStart" packet of session `gameID`. -/
def gameStartOf (gameID opponent yourSymbol : String) (yourTurn : Bool) : Message :=
  Message.matchFound
    { Typ := "gameStart", GameID := gameID, Opponent := opponent, YourSymbol := yourSymbol,
      YourTurn := yourTurn }

/-! # Theorems -/

/-! ## Lemmas on the directory map -/

theorem storeAt_cons_ne (gameID : String) (g : Game) (e : String × Game) (rest : List (String × Game))
    (he : e.1 ≠ gameID) : storeAt gameID g (e :: rest) = e :: storeAt gameID g rest := by
  simp [storeAt, he]

theorem storeAt_cons_eq (gameID : String) (g : Game) (e : String × Game) (rest : List (String × Game))
    (he : e.1 = gameID) : storeAt gameID g (e :: rest) = (gameID, g) :: rest := by
  simp [storeAt, he]

theorem find_storeAt_ne (gameID id : String) (g : Game) (hne : id ≠ gameID) (l : List (String × Game)) :
    (storeAt gameID g l).find? (fun e => e.1 = id) = l.find? (fun e => e.1 = id) := by
  induction l with
  | nil => rfl
  | cons e rest ih =>
    by_cases he : e.1 = gameID
    · have h1 : ¬ e.1 = id := fun h => hne (h ▸ he)
      have h2 : ¬ gameID = id := fun h => hne h.symm
      rw [storeAt_cons_eq _ _ _ _ he]
      simp [List.find?_cons, h1, h2]
    · rw [storeAt_cons_ne _ _ _ _ he]
      by_cases hid : e.1 = id
      · simp [List.find?_cons, hid]
      · simp [List.find?_cons, hid, ih]

theorem find_storeAt_self (gameID : String) (g : Game) (l : List (String × Game))
    (h : (l.find? (fun e => e.1 = gameID)).isSome) :
    (storeAt gameID g l).find? (fun e => e.1 = gameID) = some (gameID, g) := by
  induction l with
  | nil => simp at h
  | cons e rest ih =>
    by_cases he : e.1 = gameID
    · rw [storeAt_cons_eq _ _ _ _ he]
      simp [List.find?_cons]
    · rw [storeAt_cons_ne _ _ _ _ he]
      simp only [List.find?_cons, he, decide_False] at h ⊢
      exact ih h

theorem map_fst_storeAt (gameID : String) (g : Game) (l : List (String × Game)) :
    (storeAt gameID g l).map Prod.fst = l.map Prod.fst := by
  induction l with
  | nil => rfl
  | cons e rest ih =>
    by_cases he : e.1 = gameID
    · rw [storeAt_cons_eq _ _ _ _ he]
      simp [he]
    · rw [storeAt_cons_ne _ _ _ _ he]
      simp [ih]

theorem lookup_store_self (m : GameManager) (gameID : String) (g g' : Game)
    (h : m.lookup gameID = some g) :
    GameManager.lookup { games := storeAt gameID g' m.games } gameID = some g' := by
  have hs : (m.games.find? (fun e => e.1 = gameID)).isSome := by
    unfold GameManager.lookup at h
    cases hf : m.games.find? (fun e => e.1 = gameID) with
    | none => simp [hf] at h
    | some v => rfl
  simp [GameManager.lookup, find_storeAt_self gameID g' m.games hs]

theorem lookup_store_other (m : GameManager) (gameID id : String) (g' : Game) (hne : id ≠ gameID) :
    GameManager.lookup { games := storeAt gameID g' m.games } id = m.lookup id := by
  simp [GameManager.lookup, find_storeAt_ne gameID id g' hne]

/-! ## Lemmas on the board -/

theorem index_eq_some (b : Grid) (r c : Fin 3) :
    b.index (r.val : Int) (c.val : Int) = some (b.cell r c) := by
  have hr := r.isLt
  have hc := c.isLt
  simp only [Grid.index]
  rw [dif_pos (by omega)]
  simp

theorem inRange_fin (row col : Int) (h : 0 ≤ row ∧ row < 3 ∧ 0 ≤ col ∧ col < 3) :
    ∃ r c : Fin 3, row = (r.val : Int) ∧ col = (c.val : Int) :=
  ⟨⟨row.toNat, by omega⟩, ⟨col.toNat, by omega⟩, by simp; omega, by simp; omega⟩

theorem assign_eq_some (b : Grid) (r c : Fin 3) (v : String) :
    b.assign (r.val : Int) (c.val : Int) v = some (b.put r c v) := by
  have hr := r.isLt
  have hc := c.isLt
  simp only [Grid.assign]
  rw [dif_pos (by omega)]
  simp

/-! ## Lemmas on the session operations -/

theorem isPlayerCurrent_two (g : Game) (p0 p1 player : UserPtr) (hp : g.Players = [p0, p1]) :
    g.IsPlayerCurrent player =
      some (if p0 = player then decide ("X" = g.CurrentTurn)
            else if p1 = player then decide ("O" = g.CurrentTurn) else false) := by
  unfold Game.IsPlayerCurrent
  rw [hp]
  by_cases h0 : p0 = player
  · simp [h0]
  · by_cases h1 : p1 = player
    · simp [h0, h1]
    · simp [h0, h1]

theorem isPlayerCurrent_true_turn (g : Game) (player : UserPtr)
    (h : g.IsPlayerCurrent player = some true) :
    g.CurrentTurn = "X" ∨ g.CurrentTurn = "O" := by
  unfold Game.IsPlayerCurrent at h
  cases h0 : g.Players[0]? with
  | none => simp [h0] at h
  | some p0 =>
    by_cases e0 : p0 = player
    · simp [h0, e0] at h
      exact Or.inl h.symm
    · cases h1 : g.Players[1]? with
      | none => simp [h0, e0, h1] at h
      | some p1 =>
        by_cases e1 : p1 = player
        · simp [h0, e0, h1, e1] at h
          exact Or.inr h.symm
        · simp [h0, e0, h1, e1] at h

theorem isValidMove_inBounds (g : Game) (r c : Fin 3) :
    g.IsValidMove (r.val : Int) (c.val : Int) =
      some (if g.Board.cell r c ≠ "" then some "cell already occupied" else none) := by
  have hr := r.isLt
  have hc := c.isLt
  unfold Game.IsValidMove
  rw [if_neg (by omega), index_eq_some]
  by_cases h : g.Board.cell r c = "" <;> simp [h]

theorem isValidMove_outOfBounds (g : Game) (row col : Int) (h : ¬ InBounds row col) :
    g.IsValidMove row col = some (some "move out of bounds") := by
  unfold Game.IsValidMove
  unfold InBounds at h
  rw [if_pos (by omega)]

theorem updateBoard_inBounds (g : Game) (r c : Fin 3) :
    g.UpdateBoard (r.val : Int) (c.val : Int) g.CurrentTurn = some (g.place r c) := by
  simp [Game.UpdateBoard, assign_eq_some, Game.place]

/-- Every way a call of `UpdateGame` can go, one disjunct per path through
the function body. -/
theorem updateGame_cases (m : GameManager) (gameID : String) (player : UserPtr) (row col : Int) :
    (m.lookup gameID = none ∧
      m.UpdateGame gameID player row col = some ((none, some "game not found"), m)) ∨
    (∃ g, m.lookup gameID = some g ∧ g.IsPlayerCurrent player = none ∧
      m.UpdateGame gameID player row col = none) ∨
    (∃ g, m.lookup gameID = some g ∧ g.IsPlayerCurrent player = some false ∧
      m.UpdateGame gameID player row col = some ((none, some "not your turn"), m)) ∨
    (∃ g, m.lookup gameID = some g ∧ g.IsPlayerCurrent player = some true ∧ ¬ InBounds row col ∧
      m.UpdateGame gameID player row col = some ((none, some "move out of bounds"), m)) ∨
    (∃ g, ∃ r c : Fin 3, m.lookup gameID = some g ∧ g.IsPlayerCurrent player = some true ∧
      row = (r.val : Int) ∧ col = (c.val : Int) ∧ g.Board.cell r c ≠ "" ∧
      m.UpdateGame gameID player row col = some ((none, some "cell already occupied"), m)) ∨
    (∃ g, ∃ r c : Fin 3, m.lookup gameID = some g ∧ g.IsPlayerCurrent player = some true ∧
      row = (r.val : Int) ∧ col = (c.val : Int) ∧ g.Board.cell r c = "" ∧
      checkWin (g.place r c).Board g.CurrentTurn = true ∧ player = none ∧
      m.UpdateGame gameID player row col = none) ∨
    (∃ g, ∃ r c : Fin 3, ∃ u : User, m.lookup gameID = some g ∧
      g.IsPlayerCurrent player = some true ∧
      row = (r.val : Int) ∧ col = (c.val : Int) ∧ g.Board.cell r c = "" ∧
      checkWin (g.place r c).Board g.CurrentTurn = true ∧ player = some u ∧
      m.UpdateGame gameID player row col =
        some ((some { g.place r c with Winner := u.Username, Status := GameStateCompleted }, none),
          { games := storeAt gameID
              { g.place r c with Winner := u.Username, Status := GameStateCompleted } m.games })) ∨
    (∃ g, ∃ r c : Fin 3, m.lookup gameID = some g ∧ g.IsPlayerCurrent player = some true ∧
      row = (r.val : Int) ∧ col = (c.val : Int) ∧ g.Board.cell r c = "" ∧
      checkWin (g.place r c).Board g.CurrentTurn = false ∧ checkDraw (g.place r c).Board = true ∧
      m.UpdateGame gameID player row col =
        some ((some (g.place r c).UpdateDrawState, none),
          { games := storeAt gameID (g.place r c).UpdateDrawState m.games })) ∨
    (∃ g, ∃ r c : Fin 3, m.lookup gameID = some g ∧ g.IsPlayerCurrent player = some true ∧
      row = (r.val : Int) ∧ col = (c.val : Int) ∧ g.Board.cell r c = "" ∧
      checkWin (g.place r c).Board g.CurrentTurn = false ∧ checkDraw (g.place r c).Board = false ∧
      m.UpdateGame gameID player row col =
        some ((some { g.place r c with CurrentTurn := toggleTurn g.CurrentTurn }, none),
          { games := storeAt gameID
              { g.place r c with CurrentTurn := toggleTurn g.CurrentTurn } m.games })) := by
  cases hl : m.lookup gameID with
  | none => left; simp [GameManager.UpdateGame, hl]
  | some g =>
    right
    cases hc : g.IsPlayerCurrent player with
    | none => left; exact ⟨g, rfl, hc, by simp [GameManager.UpdateGame, hl, hc]⟩
    | some cur =>
      right
      cases cur with
      | false => left; exact ⟨g, rfl, hc, by simp [GameManager.UpdateGame, hl, hc]⟩
      | true =>
        right
        by_cases hb : InBounds row col
        · right
          obtain ⟨r, c, hr, hcol⟩ := inRange_fin row col hb
          subst hr hcol
          by_cases hcell : g.Board.cell r c = ""
          · right
            have hv : g.IsValidMove (r.val : Int) (c.val : Int) = some none := by
              rw [isValidMove_inBounds]; simp [hcell]
            have hu := updateBoard_inBounds g r c
            have hturn : (g.place r c).CurrentTurn = g.CurrentTurn := rfl
            cases hw : checkWin (g.place r c).Board g.CurrentTurn with
            | true =>
              cases player with
              | none =>
                left
                exact ⟨g, r, c, rfl, hc, rfl, rfl, hcell, hw, rfl, by
                  simp [GameManager.UpdateGame, hl, hc, hv, hu, hturn, hw, Game.UpdateWinState]⟩
              | some u =>
                right; left
                exact ⟨g, r, c, u, rfl, hc, rfl, rfl, hcell, hw, rfl, by
                  simp [GameManager.UpdateGame, hl, hc, hv, hu, hturn, hw, Game.UpdateWinState]⟩
            | false =>
              right; right
              cases hd : checkDraw (g.place r c).Board with
              | true =>
                left
                exact ⟨g, r, c, rfl, hc, rfl, rfl, hcell, hw, hd, by
                  simp [GameManager.UpdateGame, hl, hc, hv, hu, hturn, hw, hd]⟩
              | false =>
                right
                exact ⟨g, r, c, rfl, hc, rfl, rfl, hcell, hw, hd, by
                  simp [GameManager.UpdateGame, hl, hc, hv, hu, hturn, hw, hd]⟩
          · left
            have hv : g.IsValidMove (r.val : Int) (c.val : Int) =
                some (some "cell already occupied") := by
              rw [isValidMove_inBounds]; simp [hcell]
            exact ⟨g, r, c, rfl, hc, rfl, rfl, hcell, by
              simp [GameManager.UpdateGame, hl, hc, hv]⟩
        · left
          exact ⟨g, rfl, hc, hb, by
            simp [GameManager.UpdateGame, hl, hc, isValidMove_outOfBounds g row col hb]⟩

theorem forall_fin3 (P : Fin 3 → Prop) : (∀ i, P i) ↔ P 0 ∧ P 1 ∧ P 2 := by
  constructor
  · intro h
    exact ⟨h 0, h 1, h 2⟩
  · rintro ⟨h0, h1, h2⟩ i
    fin_cases i
    · exact h0
    · exact h1
    · exact h2

theorem exists_fin3 (P : Fin 3 → Prop) : (∃ i, P i) ↔ P 0 ∨ P 1 ∨ P 2 := by
  constructor
  · rintro ⟨i, hi⟩
    fin_cases i
    · exact Or.inl hi
    · exact Or.inr (Or.inl hi)
    · exact Or.inr (Or.inr hi)
  · rintro (h | h | h)
    · exact ⟨0, h⟩
    · exact ⟨1, h⟩
    · exact ⟨2, h⟩

theorem rev_zero3 : (0 : Fin 3).rev = 2 := rfl
theorem rev_one3 : (1 : Fin 3).rev = 1 := rfl
theorem rev_two3 : (2 : Fin 3).rev = 0 := rfl

theorem checkWin_iff_hasLine (b : Grid) (mark : String) :
    checkWin b mark = true ↔ HasLine b mark := by
  simp only [checkWin, checkWin.loop, HasLine, forall_fin3, exists_fin3,
    rev_zero3, rev_one3, rev_two3]
  simp only [Bool.if_true_left, Bool.if_false_right, Bool.or_eq_true, Bool.and_eq_true,
    decide_eq_true_eq, Bool.or_false, Bool.and_true, Bool.decide_and, Bool.decide_eq_true, Bool.decide_or]
  generalize (b.cell 0 0 = mark ∧ b.cell 0 1 = mark ∧ b.cell 0 2 = mark) = r0
  generalize (b.cell 1 0 = mark ∧ b.cell 1 1 = mark ∧ b.cell 1 2 = mark) = r1
  generalize (b.cell 2 0 = mark ∧ b.cell 2 1 = mark ∧ b.cell 2 2 = mark) = r2
  generalize (b.cell 0 0 = mark ∧ b.cell 1 0 = mark ∧ b.cell 2 0 = mark) = c0
  generalize (b.cell 0 1 = mark ∧ b.cell 1 1 = mark ∧ b.cell 2 1 = mark) = c1
  generalize (b.cell 0 2 = mark ∧ b.cell 1 2 = mark ∧ b.cell 2 2 = mark) = c2
  generalize (b.cell 0 0 = mark ∧ b.cell 1 1 = mark ∧ b.cell 2 2 = mark) = d0
  generalize (b.cell 0 2 = mark ∧ b.cell 1 1 = mark ∧ b.cell 2 0 = mark) = d1
  tauto

theorem checkDraw_iff_full (b : Grid) :
    checkDraw b = true ↔ ∀ r c : Fin 3, b.cell r c ≠ "" := by
  simp only [checkDraw, forall_fin3]
  simp

theorem cell_put_same (b : Grid) (r c : Fin 3) (v : String) : (b.put r c v).cell r c = v := by
  simp [Grid.cell, Grid.put, Mathlib.Vector.get_set_same]

theorem cell_put_ne (b : Grid) (r c r' c' : Fin 3) (v : String) (h : r' ≠ r ∨ c' ≠ c) :
    (b.put r c v).cell r' c' = b.cell r' c' := by
  unfold Grid.cell Grid.put
  by_cases hr : r' = r
  · subst hr
    have hc : c' ≠ c := by
      rcases h with h | h
      · exact absurd rfl h
      · exact h
    rw [Mathlib.Vector.get_set_same, Mathlib.Vector.get_set_of_ne (Ne.symm hc)]
  · rw [Mathlib.Vector.get_set_of_ne (Ne.symm hr)]

/-- With two seats filled `IsPlayerCurrent` returns, and it returns `false`
for whoever does not hold the seat of the current turn. -/
theorem isPlayerCurrent_of_not_seat (g : Game) (player : UserPtr) (hlen : g.Players.length = 2)
    (hnot : ¬ g.SeatHasTurn player) : g.IsPlayerCurrent player = some false := by
  obtain ⟨p0, p1, hp⟩ := List.length_eq_two.mp hlen
  rw [isPlayerCurrent_two g p0 p1 player hp]
  unfold Game.SeatHasTurn at hnot
  rw [hp] at hnot
  simp only [List.getElem?_cons_zero, List.getElem?_cons_succ, Option.some.injEq, not_or,
    not_and] at hnot
  by_cases h0 : p0 = player
  · have hx : ¬ "X" = g.CurrentTurn := fun h => hnot.1 h0 h.symm
    simp [h0, hx]
  · by_cases h1 : p1 = player
    · have ho : ¬ "O" = g.CurrentTurn := fun h => hnot.2 h1 h.symm
      simp [h0, h1, ho]
    · simp [h0, h1]

theorem isPlayerCurrent_isSome (g : Game) (player : UserPtr) (hlen : g.Players.length = 2) :
    ∃ cur, g.IsPlayerCurrent player = some cur := by
  obtain ⟨p0, p1, hp⟩ := List.length_eq_two.mp hlen
  exact ⟨_, isPlayerCurrent_two g p0 p1 player hp⟩

theorem seat_of_isPlayerCurrent (g : Game) (player : UserPtr)
    (h : g.IsPlayerCurrent player = some true) : g.SeatHasTurn player := by
  unfold Game.IsPlayerCurrent at h
  unfold Game.SeatHasTurn
  cases h0 : g.Players[0]? with
  | none => simp [h0] at h
  | some p0 =>
    by_cases e0 : p0 = player
    · simp [h0, e0] at h
      left; exact ⟨by rw [e0], h.symm⟩
    · cases h1 : g.Players[1]? with
      | none => simp [h0, e0, h1] at h
      | some p1 =>
        by_cases e1 : p1 = player
        · simp [h0, e0, h1, e1] at h
          right; exact ⟨by rw [e1], h.symm⟩
        · simp [h0, e0, h1, e1] at h

/-- What a successful call of `UpdateGame` did: the session it found, the
cell it wrote and which of the three closing branches it took. -/
theorem updateGame_ok_inv {m : GameManager} {gameID : String} {player : UserPtr} {row col : Int}
    {g' : Game} {m' : GameManager}
    (h : m.UpdateGame gameID player row col = some ((some g', none), m')) :
    ∃ g, ∃ r c : Fin 3, m.lookup gameID = some g ∧ g.IsPlayerCurrent player = some true ∧
      row = (r.val : Int) ∧ col = (c.val : Int) ∧ g.Board.cell r c = "" ∧
      m' = { games := storeAt gameID g' m.games } ∧
      ((checkWin (g.place r c).Board g.CurrentTurn = true ∧ ∃ u : User, player = some u ∧
          g' = { g.place r c with Winner := u.Username, Status := GameStateCompleted }) ∨
       (checkWin (g.place r c).Board g.CurrentTurn = false ∧
          checkDraw (g.place r c).Board = true ∧ g' = (g.place r c).UpdateDrawState) ∨
       (checkWin (g.place r c).Board g.CurrentTurn = false ∧
          checkDraw (g.place r c).Board = false ∧
          g' = { g.place r c with CurrentTurn := toggleTurn g.CurrentTurn })) := by
  rcases updateGame_cases m gameID player row col with
    ⟨_, hr⟩ | ⟨g, _, _, hr⟩ | ⟨g, _, _, hr⟩ | ⟨g, _, _, _, hr⟩ | ⟨g, r, c, _, _, _, _, _, hr⟩ |
    ⟨g, r, c, _, _, _, _, _, _, _, hr⟩ | ⟨g, r, c, u, hl, hc, hrow, hcol, hcell, hw, hp, hr⟩ |
    ⟨g, r, c, hl, hc, hrow, hcol, hcell, hw, hd, hr⟩ |
    ⟨g, r, c, hl, hc, hrow, hcol, hcell, hw, hd, hr⟩
  · rw [hr] at h; simp at h
  · rw [hr] at h; simp at h
  · rw [hr] at h; simp at h
  · rw [hr] at h; simp at h
  · rw [hr] at h; simp at h
  · rw [hr] at h; simp at h
  · rw [hr] at h
    simp only [Option.some.injEq, Prod.mk.injEq, and_true] at h
    obtain ⟨hg', hm'⟩ := h
    exact ⟨g, r, c, hl, hc, hrow, hcol, hcell, by rw [← hm', hg'], Or.inl ⟨hw, u, hp, hg'.symm⟩⟩
  · rw [hr] at h
    simp only [Option.some.injEq, Prod.mk.injEq, and_true] at h
    obtain ⟨hg', hm'⟩ := h
    exact ⟨g, r, c, hl, hc, hrow, hcol, hcell, by rw [← hm', hg'],
      Or.inr (Or.inl ⟨hw, hd, hg'.symm⟩)⟩
  · rw [hr] at h
    simp only [Option.some.injEq, Prod.mk.injEq, and_true] at h
    obtain ⟨hg', hm'⟩ := h
    exact ⟨g, r, c, hl, hc, hrow, hcol, hcell, by rw [← hm', hg'],
      Or.inr (Or.inr ⟨hw, hd, hg'.symm⟩)⟩

/-- What a call of `UpdateGame` that returned an error did: nothing. -/
theorem updateGame_err_inv {m : GameManager} {gameID : String} {player : UserPtr} {row col : Int}
    {res : Option Game} {err : String} {m' : GameManager}
    (h : m.UpdateGame gameID player row col = some ((res, some err), m')) :
    res = none ∧ m' = m ∧
      (err = "game not found" ∨ err = "not your turn" ∨ err = "move out of bounds" ∨
        err = "cell already occupied") := by
  rcases updateGame_cases m gameID player row col with
    ⟨_, hr⟩ | ⟨g, _, _, hr⟩ | ⟨g, _, _, hr⟩ | ⟨g, _, _, _, hr⟩ | ⟨g, r, c, _, _, _, _, _, hr⟩ |
    ⟨g, r, c, _, _, _, _, _, _, _, hr⟩ | ⟨g, r, c, u, _, _, _, _, _, _, _, hr⟩ |
    ⟨g, r, c, _, _, _, _, _, _, _, hr⟩ | ⟨g, r, c, _, _, _, _, _, _, _, hr⟩
  · rw [hr] at h
    simp only [Option.some.injEq, Prod.mk.injEq] at h
    obtain ⟨⟨h1, h2⟩, h3⟩ := h
    exact ⟨h1.symm, h3.symm, Or.inl h2.symm⟩
  · rw [hr] at h; simp at h
  · rw [hr] at h
    simp only [Option.some.injEq, Prod.mk.injEq] at h
    obtain ⟨⟨h1, h2⟩, h3⟩ := h
    exact ⟨h1.symm, h3.symm, Or.inr (Or.inl h2.symm)⟩
  · rw [hr] at h
    simp only [Option.some.injEq, Prod.mk.injEq] at h
    obtain ⟨⟨h1, h2⟩, h3⟩ := h
    exact ⟨h1.symm, h3.symm, Or.inr (Or.inr (Or.inl h2.symm))⟩
  · rw [hr] at h
    simp only [Option.some.injEq, Prod.mk.injEq] at h
    obtain ⟨⟨h1, h2⟩, h3⟩ := h
    exact ⟨h1.symm, h3.symm, Or.inr (Or.inr (Or.inr h2.symm))⟩
  · rw [hr] at h; simp at h
  · rw [hr] at h; simp at h
  · rw [hr] at h; simp at h
  · rw [hr] at h; simp at h

/-! ## The claims on the session state machine -/

/-- C1: for a session of the directory with its two seats filled and a
participant who does not hold the seat of the current turn (the other player
or a stranger), `UpdateGame` returns the error "not your turn" for every row
and column, and the directory, hence the session's board, is as before. -/
theorem UpdateGame_rejects_out_of_turn (m : GameManager) (gameID : String) (g : Game)
    (player : UserPtr) (row col : Int)
    (hg : m.lookup gameID = some g) (hlen : g.Players.length = 2)
    (hnot : ¬ g.SeatHasTurn player) :
    ∃ m', m.UpdateGame gameID player row col = some ((none, some "not your turn"), m') ∧
      m' = m ∧ (m'.lookup gameID).map Game.Board = some g.Board := by
  refine ⟨m, ?_, rfl, by rw [hg]; rfl⟩
  simp [GameManager.UpdateGame, hg, isPlayerCurrent_of_not_seat g player hlen hnot]

theorem UpdateGame_rejects_out_of_turn_witness :
    dirXXOO.lookup "g1" = some gameXXOO ∧ gameXXOO.Players.length = 2 ∧
    ¬ gameXXOO.SeatHasTurn (some bob) ∧
    ∃ m', dirXXOO.UpdateGame "g1" (some bob) 2 2 = some ((none, some "not your turn"), m') ∧
      m' = dirXXOO ∧ (m'.lookup "g1").map Game.Board = some gameXXOO.Board :=
  ⟨by decide, by decide, by decide,
    UpdateGame_rejects_out_of_turn dirXXOO "g1" gameXXOO (some bob) 2 2
      (by decide) (by decide) (by decide)⟩

/-- C2: whenever `UpdateGame` returns an error, no session is handed back, the
error is one of the four messages, and the directory is unchanged: same game
ids, and every session equal to what it was (board, turn, status, winner). -/
theorem UpdateGame_error_leaves_directory (m : GameManager) (gameID : String)
    (player : UserPtr) (row col : Int) (res : Option Game) (err : String) (m' : GameManager)
    (h : m.UpdateGame gameID player row col = some ((res, some err), m')) :
    res = none ∧
    (err = "game not found" ∨ err = "not your turn" ∨ err = "move out of bounds" ∨
      err = "cell already occupied") ∧
    m' = m ∧ m'.ids = m.ids ∧
    ∀ id, (m'.lookup id).map (fun s => (s.Board, s.CurrentTurn, s.Status, s.Winner)) =
      (m.lookup id).map (fun s => (s.Board, s.CurrentTurn, s.Status, s.Winner)) := by
  obtain ⟨h1, h2, h3⟩ := updateGame_err_inv h
  subst h2
  exact ⟨h1, h3, rfl, rfl, fun _ => rfl⟩

theorem UpdateGame_error_leaves_directory_witness :
    dirTwo.UpdateGame "g1" (some alice) 0 0 =
        some ((none, some "cell already occupied"), dirTwo) ∧
    ((none : Option Game) = none ∧
    ("cell already occupied" = "game not found" ∨ "cell already occupied" = "not your turn" ∨
      "cell already occupied" = "move out of bounds" ∨
      "cell already occupied" = "cell already occupied") ∧
    dirTwo = dirTwo ∧ dirTwo.ids = dirTwo.ids ∧
    ∀ id, (dirTwo.lookup id).map (fun s => (s.Board, s.CurrentTurn, s.Status, s.Winner)) =
      (dirTwo.lookup id).map (fun s => (s.Board, s.CurrentTurn, s.Status, s.Winner))) :=
  ⟨by decide,
    UpdateGame_error_leaves_directory dirTwo "g1" (some alice) 0 0 none "cell already occupied"
      dirTwo (by decide)⟩

/-- C3: `IsValidMove` returns "move out of bounds" exactly when row or col is
outside `[0,3)`; inside the bounds it returns "cell already occupied" exactly
when the cell is non-empty and no error exactly when it is empty; and it never
panics, that is, it never indexes the board out of range. -/
theorem IsValidMove_spec (g : Game) (row col : Int) :
    (g.IsValidMove row col = some (some "move out of bounds") ↔ ¬ InBounds row col) ∧
    (g.IsValidMove row col = some (some "cell already occupied") ↔
      ∃ r c : Fin 3, row = (r.val : Int) ∧ col = (c.val : Int) ∧ g.Board.cell r c ≠ "") ∧
    (g.IsValidMove row col = some none ↔
      ∃ r c : Fin 3, row = (r.val : Int) ∧ col = (c.val : Int) ∧ g.Board.cell r c = "") ∧
    g.IsValidMove row col ≠ none := by
  by_cases hb : InBounds row col
  · obtain ⟨r, c, hr, hc⟩ := inRange_fin row col hb
    subst hr hc
    have hv := isValidMove_inBounds g r c
    have key : ∀ (P : Fin 3 → Fin 3 → Prop),
        (∃ r' c' : Fin 3, (r.val : Int) = (r'.val : Int) ∧ (c.val : Int) = (c'.val : Int) ∧
          P r' c') ↔ P r c := by
      intro P
      constructor
      · rintro ⟨r', c', h1, h2, h3⟩
        have e1 : r = r' := Fin.ext (by exact_mod_cast h1)
        have e2 : c = c' := Fin.ext (by exact_mod_cast h2)
        subst e1 e2
        exact h3
      · intro h
        exact ⟨r, c, rfl, rfl, h⟩
    rw [key (fun r' c' => g.Board.cell r' c' ≠ ""), key (fun r' c' => g.Board.cell r' c' = ""), hv]
    by_cases hcell : g.Board.cell r c = ""
    · simp [hcell, hb]
    · simp [hcell, hb]
  · have hv := isValidMove_outOfBounds g row col hb
    rw [hv]
    refine ⟨by simp [hb], ?_, ?_, by simp⟩
    · constructor
      · intro h; simp at h
      · rintro ⟨r, c, h1, h2, _⟩
        exfalso; apply hb
        have := r.isLt; have := c.isLt
        unfold InBounds; omega
    · constructor
      · intro h; simp at h
      · rintro ⟨r, c, h1, h2, _⟩
        exfalso; apply hb
        have := r.isLt; have := c.isLt
        unfold InBounds; omega

theorem updateGame_ok_board {m : GameManager} {gameID : String} {player : UserPtr}
    {row col : Int} {g' : Game} {m' : GameManager}
    (h : m.UpdateGame gameID player row col = some ((some g', none), m')) :
    ∃ g, ∃ r c : Fin 3, m.lookup gameID = some g ∧ g.IsPlayerCurrent player = some true ∧
      row = (r.val : Int) ∧ col = (c.val : Int) ∧ g.Board.cell r c = "" ∧
      g'.Board = g.Board.put r c g.CurrentTurn ∧
      m' = { games := storeAt gameID g' m.games } := by
  obtain ⟨g, r, c, hl, hc, hrow, hcol, hcell, hm', hbr⟩ := updateGame_ok_inv h
  refine ⟨g, r, c, hl, hc, hrow, hcol, hcell, ?_, hm'⟩
  rcases hbr with ⟨_, u, _, e⟩ | ⟨_, _, e⟩ | ⟨_, _, e⟩ <;> rw [e] <;> rfl

/-- C4: after a successful `UpdateGame` the cell (row, col), empty before,
holds the mark that was the current turn (a non-empty mark); every other cell
is as before, so no occupied cell is emptied or re-marked; the session is
stored under the same id, the set of ids is the same and no other session of
the directory is modified. -/
theorem UpdateGame_success_frame (m : GameManager) (gameID : String) (player : UserPtr)
    (row col : Int) (g' : Game) (m' : GameManager)
    (h : m.UpdateGame gameID player row col = some ((some g', none), m')) :
    ∃ g, ∃ r c : Fin 3, m.lookup gameID = some g ∧ row = (r.val : Int) ∧ col = (c.val : Int) ∧
      g.Board.cell r c = "" ∧ g.CurrentTurn ≠ "" ∧ g'.Board.cell r c = g.CurrentTurn ∧
      (∀ r' c' : Fin 3, (r' ≠ r ∨ c' ≠ c) → g'.Board.cell r' c' = g.Board.cell r' c') ∧
      (∀ r' c' : Fin 3, g.Board.cell r' c' ≠ "" → g'.Board.cell r' c' = g.Board.cell r' c') ∧
      m'.lookup gameID = some g' ∧ m'.ids = m.ids ∧
      ∀ id, id ≠ gameID → m'.lookup id = m.lookup id := by
  obtain ⟨g, r, c, hl, hc, hrow, hcol, hcell, hb, hm'⟩ := updateGame_ok_board h
  have hturn : g.CurrentTurn ≠ "" := by
    rcases isPlayerCurrent_true_turn g player hc with e | e <;> rw [e] <;> decide
  have hframe : ∀ r' c' : Fin 3, (r' ≠ r ∨ c' ≠ c) → g'.Board.cell r' c' = g.Board.cell r' c' := by
    intro r' c' hne
    rw [hb]
    exact cell_put_ne g.Board r c r' c' g.CurrentTurn hne
  refine ⟨g, r, c, hl, hrow, hcol, hcell, hturn, by rw [hb]; exact cell_put_same _ _ _ _,
    hframe, ?_, ?_, ?_, ?_⟩
  · intro r' c' hocc
    apply hframe
    by_contra hcon
    simp only [not_or, not_not] at hcon
    rw [hcon.1, hcon.2] at hocc
    exact hocc hcell
  · rw [hm']; exact lookup_store_self m gameID g g' hl
  · rw [hm']; exact map_fst_storeAt gameID g' m.games
  · intro id hne
    rw [hm']; exact lookup_store_other m gameID id g' hne

theorem UpdateGame_success_frame_witness :
    dirTwo.UpdateGame "g2" (some alice) 2 2 = some ((some gameLastCell_drawn, none), dirTwo_drawn) ∧
    ∃ g, ∃ r c : Fin 3, dirTwo.lookup "g2" = some g ∧ (2 : Int) = (r.val : Int) ∧
      (2 : Int) = (c.val : Int) ∧
      g.Board.cell r c = "" ∧ g.CurrentTurn ≠ "" ∧ gameLastCell_drawn.Board.cell r c = g.CurrentTurn ∧
      (∀ r' c' : Fin 3, (r' ≠ r ∨ c' ≠ c) →
        gameLastCell_drawn.Board.cell r' c' = g.Board.cell r' c') ∧
      (∀ r' c' : Fin 3, g.Board.cell r' c' ≠ "" →
        gameLastCell_drawn.Board.cell r' c' = g.Board.cell r' c') ∧
      dirTwo_drawn.lookup "g2" = some gameLastCell_drawn ∧ dirTwo_drawn.ids = dirTwo.ids ∧
      ∀ id, id ≠ "g2" → dirTwo_drawn.lookup id = dirTwo.lookup id :=
  ⟨by decide,
    UpdateGame_success_frame dirTwo "g2" (some alice) 2 2 gameLastCell_drawn dirTwo_drawn
      (by decide)⟩

/-- C5: after a successful `UpdateGame` that leaves a row, a column or a
diagonal entirely in the mover's mark (the turn mark before the call), the
session has Status "completed" and Winner the mover's username; nothing is
assumed about the board being full. -/
theorem UpdateGame_win (m : GameManager) (gameID : String) (g : Game) (player : UserPtr)
    (row col : Int) (g' : Game) (m' : GameManager)
    (hg : m.lookup gameID = some g)
    (h : m.UpdateGame gameID player row col = some ((some g', none), m'))
    (hline : HasLine g'.Board g.CurrentTurn) :
    g'.Status = "completed" ∧ ∃ u : User, player = some u ∧ g'.Winner = u.Username := by
  obtain ⟨g0, r, c, hl, _, _, _, _, _, hbr⟩ := updateGame_ok_inv h
  rw [hg] at hl
  obtain rfl : g = g0 := Option.some.inj hl
  rcases hbr with ⟨_, u, hp, e⟩ | ⟨hw, _, e⟩ | ⟨hw, _, e⟩
  · rw [e]
    exact ⟨rfl, u, hp, rfl⟩
  · exfalso
    have hb : g'.Board = (g.place r c).Board := by rw [e]; rfl
    rw [hb, ← checkWin_iff_hasLine, hw] at hline
    exact Bool.false_ne_true hline
  · exfalso
    have hb : g'.Board = (g.place r c).Board := by rw [e]
    rw [hb, ← checkWin_iff_hasLine, hw] at hline
    exact Bool.false_ne_true hline

theorem UpdateGame_win_witness :
    gameXXOO.Board = Grid.ofRows "X" "X" "" "O" "O" "" "" "" "" ∧ gameXXOO.CurrentTurn = "X" ∧
    dirXXOO.lookup "g1" = some gameXXOO ∧
    dirXXOO.UpdateGame "g1" (some alice) 0 2 = some ((some gameXXOO_won, none), dirXXOO_won) ∧
    (∀ j : Fin 3, gameXXOO_won.Board.cell 0 j = "X") ∧
    HasLine gameXXOO_won.Board gameXXOO.CurrentTurn ∧
    (gameXXOO_won.Status = "completed" ∧
      ∃ u : User, some alice = some u ∧ gameXXOO_won.Winner = u.Username) :=
  ⟨by decide, by decide, by decide, by decide, by decide, by decide,
    UpdateGame_win dirXXOO "g1" gameXXOO (some alice) 0 2 gameXXOO_won dirXXOO_won
      (by decide) (by decide) (by decide)⟩

/-- C6: after a successful `UpdateGame` on the last empty cell of the board
that leaves no row, column or diagonal entirely in the mover's mark, the
session has Status "completed" and Winner "draw" (and the board is full). -/
theorem UpdateGame_draw (m : GameManager) (gameID : String) (g : Game) (player : UserPtr)
    (row col : Int) (g' : Game) (m' : GameManager)
    (hg : m.lookup gameID = some g)
    (h : m.UpdateGame gameID player row col = some ((some g', none), m'))
    (hlast : ∀ r c : Fin 3, ((r.val : Int) ≠ row ∨ (c.val : Int) ≠ col) → g.Board.cell r c ≠ "")
    (hno : ¬ HasLine g'.Board g.CurrentTurn) :
    g'.Status = "completed" ∧ g'.Winner = "draw" ∧ ∀ r c : Fin 3, g'.Board.cell r c ≠ "" := by
  obtain ⟨g0, r, c, hl, hc, hrow, hcol, _, _, hbr⟩ := updateGame_ok_inv h
  rw [hg] at hl
  obtain rfl : g = g0 := Option.some.inj hl
  have hturn : g.CurrentTurn ≠ "" := by
    rcases isPlayerCurrent_true_turn g player hc with e | e <;> rw [e] <;> decide
  have hfull : ∀ r' c' : Fin 3, (g.place r c).Board.cell r' c' ≠ "" := by
    intro r' c'
    show (g.Board.put r c g.CurrentTurn).cell r' c' ≠ ""
    by_cases hrc : r' ≠ r ∨ c' ≠ c
    · rw [cell_put_ne _ _ _ _ _ _ hrc]
      apply hlast
      rcases hrc with hr | hc'
      · left; rw [hrow]; exact fun e => hr (Fin.ext (by exact_mod_cast e))
      · right; rw [hcol]; exact fun e => hc' (Fin.ext (by exact_mod_cast e))
    · simp only [not_or, not_not] at hrc
      rw [hrc.1, hrc.2, cell_put_same]
      exact hturn
  have hdraw : checkDraw (g.place r c).Board = true := (checkDraw_iff_full _).mpr hfull
  rcases hbr with ⟨hw, u, _, e⟩ | ⟨_, _, e⟩ | ⟨_, hd, _⟩
  · exfalso
    apply hno
    have hb : g'.Board = (g.place r c).Board := by rw [e]
    rw [hb]
    exact (checkWin_iff_hasLine _ _).mp hw
  · rw [e]
    exact ⟨rfl, rfl, hfull⟩
  · rw [hdraw] at hd
    exact absurd hd (by decide)

theorem UpdateGame_draw_witness :
    dirTwo.lookup "g2" = some gameLastCell ∧
    dirTwo.UpdateGame "g2" (some alice) 2 2 = some ((some gameLastCell_drawn, none), dirTwo_drawn) ∧
    (∀ r c : Fin 3, ((r.val : Int) ≠ 2 ∨ (c.val : Int) ≠ 2) → gameLastCell.Board.cell r c ≠ "") ∧
    ¬ HasLine gameLastCell_drawn.Board gameLastCell.CurrentTurn ∧
    (gameLastCell_drawn.Status = "completed" ∧ gameLastCell_drawn.Winner = "draw" ∧
      ∀ r c : Fin 3, gameLastCell_drawn.Board.cell r c ≠ "") :=
  ⟨by decide, by decide, by decide, by decide,
    UpdateGame_draw dirTwo "g2" gameLastCell (some alice) 2 2 gameLastCell_drawn dirTwo_drawn
      (by decide) (by decide) (by decide) (by decide)⟩

/-- C7: after a successful `UpdateGame` that leaves no row, column or diagonal
entirely in the mover's mark and at least one cell empty, Status and Winner
are what they were before the call and CurrentTurn has flipped: "X" became "O"
or "O" became "X". -/
theorem UpdateGame_continue (m : GameManager) (gameID : String) (g : Game) (player : UserPtr)
    (row col : Int) (g' : Game) (m' : GameManager)
    (hg : m.lookup gameID = some g)
    (h : m.UpdateGame gameID player row col = some ((some g', none), m'))
    (hno : ¬ HasLine g'.Board g.CurrentTurn)
    (hempty : ∃ r c : Fin 3, g'.Board.cell r c = "") :
    g'.Status = g.Status ∧ g'.Winner = g.Winner ∧
    ((g.CurrentTurn = "X" ∧ g'.CurrentTurn = "O") ∨
      (g.CurrentTurn = "O" ∧ g'.CurrentTurn = "X")) := by
  obtain ⟨g0, r, c, hl, hc, _, _, _, _, hbr⟩ := updateGame_ok_inv h
  rw [hg] at hl
  obtain rfl : g = g0 := Option.some.inj hl
  rcases hbr with ⟨hw, u, _, e⟩ | ⟨_, hd, e⟩ | ⟨_, _, e⟩
  · exfalso
    apply hno
    have hb : g'.Board = (g.place r c).Board := by rw [e]
    rw [hb]
    exact (checkWin_iff_hasLine _ _).mp hw
  · exfalso
    obtain ⟨r', c', hcell⟩ := hempty
    have hb : g'.Board = (g.place r c).Board := by rw [e]; rfl
    rw [hb] at hcell
    exact (checkDraw_iff_full _).mp hd r' c' hcell
  · rw [e]
    refine ⟨rfl, rfl, ?_⟩
    rcases isPlayerCurrent_true_turn g player hc with ex | eo
    · left; exact ⟨ex, by simp [toggleTurn, ex]⟩
    · right; exact ⟨eo, by simp [toggleTurn, eo]⟩

theorem UpdateGame_continue_witness :
    dirXXOO.lookup "g1" = some gameXXOO ∧
    dirXXOO.UpdateGame "g1" (some alice) 2 2 = some ((some gameXXOO_on, none), dirXXOO_on) ∧
    ¬ HasLine gameXXOO_on.Board gameXXOO.CurrentTurn ∧
    (∃ r c : Fin 3, gameXXOO_on.Board.cell r c = "") ∧
    (gameXXOO_on.Status = gameXXOO.Status ∧ gameXXOO_on.Winner = gameXXOO.Winner ∧
      ((gameXXOO.CurrentTurn = "X" ∧ gameXXOO_on.CurrentTurn = "O") ∨
        (gameXXOO.CurrentTurn = "O" ∧ gameXXOO_on.CurrentTurn = "X"))) :=
  ⟨by decide, by decide, by decide, by decide,
    UpdateGame_continue dirXXOO "g1" gameXXOO (some alice) 2 2 gameXXOO_on dirXXOO_on
      (by decide) (by decide) (by decide) (by decide)⟩

/-- A call on a session with two seats filled either is rejected, leaving the
directory alone, or comes from the holder of the current turn's seat and aims
at an empty cell inside the board. -/
theorem updateGame_rejected_or (m : GameManager) (gameID : String) (g : Game)
    (player : UserPtr) (row col : Int)
    (hg : m.lookup gameID = some g) (hlen : g.Players.length = 2) :
    (∃ err, m.UpdateGame gameID player row col = some ((none, some err), m)) ∨
    (g.SeatHasTurn player ∧
      ∃ r c : Fin 3, row = (r.val : Int) ∧ col = (c.val : Int) ∧ g.Board.cell r c = "") := by
  rcases updateGame_cases m gameID player row col with
    ⟨hl, _⟩ | ⟨g0, hl, hc, _⟩ | ⟨g0, _, _, hr⟩ | ⟨g0, _, _, _, hr⟩ |
    ⟨g0, r, c, _, _, _, _, _, hr⟩ |
    ⟨g0, r, c, hl, hc, hrow, hcol, hcell, _⟩ | ⟨g0, r, c, u, hl, hc, hrow, hcol, hcell, _⟩ |
    ⟨g0, r, c, hl, hc, hrow, hcol, hcell, _⟩ | ⟨g0, r, c, hl, hc, hrow, hcol, hcell, _⟩
  · rw [hg] at hl; exact absurd hl (by simp)
  · rw [hg] at hl
    obtain rfl : g = g0 := Option.some.inj hl
    obtain ⟨cur, hcur⟩ := isPlayerCurrent_isSome g player hlen
    rw [hcur] at hc; exact absurd hc (by simp)
  · exact Or.inl ⟨_, hr⟩
  · exact Or.inl ⟨_, hr⟩
  · exact Or.inl ⟨_, hr⟩
  all_goals
    rw [hg] at hl
    obtain rfl : g = g0 := Option.some.inj hl
    exact Or.inr ⟨seat_of_isPlayerCurrent g player hc, r, c, hrow, hcol, hcell⟩

/-- C8, as the code has it: a completed session with an empty cell still
takes a move from the holder of the current turn's seat.  From a fresh session
five legal moves complete row 0 for "X"; the session is then "completed", and
the next call by the same player at the empty cell (2,2) succeeds and changes
the board. -/
theorem completed_session_accepts_move :
    dirFresh.play movesToWin = some { games := [("game_7", gameWon7)] } ∧
    GameManager.lookup { games := [("game_7", gameWon7)] } "game_7" = some gameWon7 ∧
    gameWon7.Status = "completed" ∧
    GameManager.UpdateGame { games := [("game_7", gameWon7)] } "game_7" (some alice) 2 2 =
      some ((some gameExtra7, none), { games := [("game_7", gameExtra7)] }) ∧
    gameExtra7.Board ≠ gameWon7.Board := by
  decide

/-- C8 (amended): on a session whose Status is "completed" (two seats
filled), a call by anyone but the holder of the current turn's seat, or at a
cell out of bounds or occupied, is rejected with an error and leaves the
directory unchanged; so is every call once the board is full; and whatever a
call returns, the session's Status is still "completed" afterwards. -/
theorem UpdateGame_on_completed (m : GameManager) (gameID : String) (g : Game)
    (player : UserPtr) (row col : Int)
    (hg : m.lookup gameID = some g) (hlen : g.Players.length = 2)
    (hs : g.Status = "completed") :
    ((¬ g.SeatHasTurn player ∨ ¬ InBounds row col ∨
        (∃ r c : Fin 3, row = (r.val : Int) ∧ col = (c.val : Int) ∧ g.Board.cell r c ≠ "")) →
      ∃ err, m.UpdateGame gameID player row col = some ((none, some err), m)) ∧
    ((∀ r c : Fin 3, g.Board.cell r c ≠ "") →
      ∃ err, m.UpdateGame gameID player row col = some ((none, some err), m)) ∧
    (∀ res m', m.UpdateGame gameID player row col = some (res, m') →
      (m'.lookup gameID).map Game.Status = some "completed") := by
  refine ⟨?_, ?_, ?_⟩
  · intro hrej
    rcases updateGame_rejected_or m gameID g player row col hg hlen with hr | ⟨hseat, r, c, h1, h2, h3⟩
    · exact hr
    · exfalso
      rcases hrej with hn | hn | ⟨r', c', e1, e2, hocc⟩
      · exact hn hseat
      · apply hn
        have := r.isLt; have := c.isLt
        unfold InBounds; omega
      · have er : r = r' := Fin.ext (by rw [h1] at e1; exact_mod_cast e1)
        have ec : c = c' := Fin.ext (by rw [h2] at e2; exact_mod_cast e2)
        subst er ec
        exact hocc h3
  · intro hfull
    rcases updateGame_rejected_or m gameID g player row col hg hlen with hr | ⟨_, r, c, _, _, h3⟩
    · exact hr
    · exact absurd h3 (hfull r c)
  · intro res m' h
    rcases res with ⟨og, oe⟩
    cases oe with
    | some err =>
      obtain ⟨_, hm, _⟩ := updateGame_err_inv h
      rw [hm, hg]
      simp [hs]
    | none =>
      cases og with
      | none =>
        exfalso
        rcases updateGame_cases m gameID player row col with
          ⟨_, hr⟩ | ⟨_, _, _, hr⟩ | ⟨_, _, _, hr⟩ | ⟨_, _, _, _, hr⟩ |
          ⟨_, _, _, _, _, _, _, _, hr⟩ | ⟨_, _, _, _, _, _, _, _, _, _, hr⟩ |
          ⟨_, _, _, _, _, _, _, _, _, _, _, hr⟩ | ⟨_, _, _, _, _, _, _, _, _, _, hr⟩ |
          ⟨_, _, _, _, _, _, _, _, _, _, hr⟩ <;>
        · rw [hr] at h; simp at h
      | some g' =>
        obtain ⟨g0, r, c, hl, _, _, _, _, hm', hbr⟩ := updateGame_ok_inv h
        rw [hg] at hl
        obtain rfl : g = g0 := Option.some.inj hl
        rw [hm', lookup_store_self m gameID g g' hg]
        rcases hbr with ⟨_, u, _, e⟩ | ⟨_, _, e⟩ | ⟨_, _, e⟩
        · rw [e]; rfl
        · rw [e]; rfl
        · rw [e]; simp [Game.place, hs]

theorem UpdateGame_on_completed_witness :
    dirTwo_drawn.lookup "g2" = some gameLastCell_drawn ∧
    gameLastCell_drawn.Players.length = 2 ∧ gameLastCell_drawn.Status = "completed" ∧
    (((¬ gameLastCell_drawn.SeatHasTurn (some alice) ∨ ¬ InBounds 1 1 ∨
        (∃ r c : Fin 3, (1 : Int) = (r.val : Int) ∧ (1 : Int) = (c.val : Int) ∧
          gameLastCell_drawn.Board.cell r c ≠ "")) →
      ∃ err, dirTwo_drawn.UpdateGame "g2" (some alice) 1 1 =
        some ((none, some err), dirTwo_drawn)) ∧
    ((∀ r c : Fin 3, gameLastCell_drawn.Board.cell r c ≠ "") →
      ∃ err, dirTwo_drawn.UpdateGame "g2" (some alice) 1 1 =
        some ((none, some err), dirTwo_drawn)) ∧
    (∀ res m', dirTwo_drawn.UpdateGame "g2" (some alice) 1 1 = some (res, m') →
      (m'.lookup "g2").map Game.Status = some "completed")) :=
  ⟨by decide, by decide, by decide,
    UpdateGame_on_completed dirTwo_drawn "g2" gameLastCell_drawn (some alice) 1 1
      (by decide) (by decide) (by decide)⟩

/-! ## Lemmas on the pool and the channel heap -/

theorem delete_eq_erase (m : MatchmakingManager) (opp : UserPtr) (oppChan : Nat)
    (hk : m.KeysNodup) (hmem : (opp, oppChan) ∈ m.matchmaking) :
    (m.delete opp).matchmaking = m.matchmaking.erase (opp, oppChan) := by
  have hnd : m.matchmaking.Nodup := List.Nodup.of_map Prod.fst hk
  unfold MatchmakingManager.delete
  rw [List.Nodup.erase_eq_filter hnd]
  apply List.filter_congr
  intro e he
  by_cases hkey : e.1 = opp
  · have : e = (opp, oppChan) := List.inj_on_of_nodup_map hk he hmem hkey
    simp [this]
  · have hne : e ≠ (opp, oppChan) := fun h => hkey (by rw [h])
    simp [hkey, hne]

theorem send_fresh (h : ChanHeap) (cap : Nat) (game : Game) :
    (h.make (cap + 1)).2.send (h.make (cap + 1)).1 game =
      some { chans := h.chans ++ [{ cap := cap + 1, buf := [game] }] } := by
  simp [ChanHeap.make, ChanHeap.send]

theorem send_old (h : ChanHeap) (extra c : Chan) (ch : Nat) (game : Game)
    (hget : h.chans[ch]? = some c) (hroom : c.buf.length < c.cap) :
    ChanHeap.send { chans := h.chans ++ [extra] } ch game =
      some { chans := h.chans.set ch { c with buf := c.buf ++ [game] } ++ [extra] } := by
  have hlt : ch < h.chans.length := by
    by_contra hcon
    rw [List.getElem?_eq_none (by omega)] at hget
    exact absurd hget (by simp)
  simp only [ChanHeap.send]
  rw [List.getElem?_append_left hlt, hget]
  simp [hroom, List.set_append_left _ _ hlt]

/-- The pairing step written out for the entry the loop meets first. -/
theorem requestMatch_enter_pick (m : MatchmakingManager) (h : ChanHeap) (user : UserPtr)
    (gameID : String) (pick : Nat) (opp : UserPtr) (oppChan : Nat) (c : Chan)
    (hpick : m.matchmaking[pick % m.matchmaking.length]? = some (opp, oppChan))
    (hget : h.chans[oppChan]? = some c) (hroom : c.buf.length < c.cap) :
    m.RequestMatch_enter h user gameID pick =
      some (MatchStep.paired (NewGame gameID user opp), m.delete opp,
        { chans := h.chans.set oppChan { c with buf := c.buf ++ [NewGame gameID user opp] } ++
            [{ cap := m.matchmaking.length + 1, buf := [NewGame gameID user opp] }] }) := by
  have h1 := send_fresh h m.matchmaking.length (NewGame gameID user opp)
  have h2 := send_old h { cap := m.matchmaking.length + 1, buf := [NewGame gameID user opp] } c
    oppChan (NewGame gameID user opp) hget hroom
  simp only [ChanHeap.make] at h1
  simp only [MatchmakingManager.RequestMatch_enter, ChanHeap.make, hpick, h1, h2,
    Option.bind_eq_bind, Option.some_bind, Option.pure_def, bind_pure_comp, Option.map_eq_map,
    Option.map_some']

/-- On an empty pool the loop body does not run: the caller's ticket is
registered on a fresh channel of capacity 1, and the pool so made is a map
whose waiting channel has room. -/
theorem requestMatch_enter_empty (h : ChanHeap) (user : UserPtr) (gameID : String) (pick : Nat) :
    NewMatchmakingManager.RequestMatch_enter h user gameID pick =
      some (MatchStep.waiting h.chans.length, { matchmaking := [(user, h.chans.length)] },
        { chans := h.chans ++ [{ cap := 1, buf := [] }] }) ∧
    MatchmakingManager.KeysNodup { matchmaking := [(user, h.chans.length)] } ∧
    MatchmakingManager.ChansReady { matchmaking := [(user, h.chans.length)] }
      { chans := h.chans ++ [{ cap := 1, buf := [] }] } := by
  refine ⟨?_, ?_, ?_⟩
  · simp [MatchmakingManager.RequestMatch_enter, NewMatchmakingManager, ChanHeap.make,
      MatchmakingManager.assign]
  · simp [MatchmakingManager.KeysNodup]
  · intro e he
    simp only [List.mem_singleton] at he
    subst he
    exact ⟨{ cap := 1, buf := [] }, by simp, by simp⟩

/-- C9: on a non-empty pool (a map: no key twice; every waiting channel has
room) the pairing step of `RequestMatch` returns a session to the caller,
removes exactly one ticket and leaves every other ticket in place, adds none,
puts that same session into the removed ticket's channel and touches no other
channel that existed; the session is `NewGame` of the caller and the removed
participant: players `[caller, removed]`, empty board, turn "X", status
"in_progress". -/
theorem RequestMatch_pairing_step (m : MatchmakingManager) (h : ChanHeap) (user : UserPtr)
    (gameID : String) (pick : Nat)
    (hne : m.matchmaking ≠ []) (hk : m.KeysNodup) (hready : m.ChansReady h) :
    ∃ (opp : UserPtr) (oppChan : Nat) (c : Chan) (game : Game) (m' : MatchmakingManager)
      (h' : ChanHeap),
      m.RequestMatch_enter h user gameID pick = some (MatchStep.paired game, m', h') ∧
      (opp, oppChan) ∈ m.matchmaking ∧
      m'.matchmaking = m.matchmaking.erase (opp, oppChan) ∧
      m'.matchmaking.length + 1 = m.matchmaking.length ∧
      (∀ e, e ∈ m'.matchmaking ↔ e ∈ m.matchmaking ∧ e ≠ (opp, oppChan)) ∧
      h.chans[oppChan]? = some c ∧
      h'.chans[oppChan]? = some { c with buf := c.buf ++ [game] } ∧
      (∀ i, i < h.chans.length → i ≠ oppChan → h'.chans[i]? = h.chans[i]?) ∧
      game = NewGame gameID user opp ∧ game.Players = [user, opp] ∧
      (∀ r k : Fin 3, game.Board.cell r k = "") ∧
      game.CurrentTurn = "X" ∧ game.Status = "in_progress" := by
  have hpos : 0 < m.matchmaking.length := List.length_pos.mpr hne
  have hidx : pick % m.matchmaking.length < m.matchmaking.length := Nat.mod_lt _ hpos
  have hpick : m.matchmaking[pick % m.matchmaking.length]? =
      some (m.matchmaking[pick % m.matchmaking.length]) := List.getElem?_eq_getElem hidx
  have hmem : m.matchmaking[pick % m.matchmaking.length] ∈ m.matchmaking :=
    List.getElem_mem hidx
  generalize m.matchmaking[pick % m.matchmaking.length] = e at hpick hmem
  obtain ⟨opp, oppChan⟩ := e
  obtain ⟨c, hget, hroom⟩ := hready (opp, oppChan) hmem
  have hlt : oppChan < h.chans.length := by
    by_contra hcon
    rw [List.getElem?_eq_none (by omega)] at hget
    exact absurd hget (by simp)
  have hnd : m.matchmaking.Nodup := List.Nodup.of_map Prod.fst hk
  have herase := delete_eq_erase m opp oppChan hk hmem
  refine ⟨opp, oppChan, c, NewGame gameID user opp, m.delete opp, _,
    requestMatch_enter_pick m h user gameID pick opp oppChan c hpick hget hroom,
    hmem, herase, ?_, ?_, hget, ?_, ?_, rfl, rfl, ?_, rfl, rfl⟩
  · rw [herase, List.length_erase_of_mem hmem]
    omega
  · intro e
    rw [herase, List.Nodup.mem_erase_iff hnd]
    exact And.comm
  · rw [List.getElem?_append_left (by rw [List.length_set]; exact hlt)]
    rw [List.getElem?_set_self hlt]
  · intro i hi hne'
    rw [List.getElem?_append_left (by rw [List.length_set]; exact hi)]
    rw [List.getElem?_set_ne (Ne.symm hne')]
  · show ∀ r k : Fin 3, Grid.empty.cell r k = ""
    decide

theorem RequestMatch_pairing_step_witness :
    poolBobCarol.matchmaking ≠ [] ∧ poolBobCarol.KeysNodup ∧
    poolBobCarol.ChansReady heapBobCarol ∧
    ∃ (opp : UserPtr) (oppChan : Nat) (c : Chan) (game : Game) (m' : MatchmakingManager)
      (h' : ChanHeap),
      poolBobCarol.RequestMatch_enter heapBobCarol (some alice) "u1" 1 =
        some (MatchStep.paired game, m', h') ∧
      (opp, oppChan) ∈ poolBobCarol.matchmaking ∧
      m'.matchmaking = poolBobCarol.matchmaking.erase (opp, oppChan) ∧
      m'.matchmaking.length + 1 = poolBobCarol.matchmaking.length ∧
      (∀ e, e ∈ m'.matchmaking ↔ e ∈ poolBobCarol.matchmaking ∧ e ≠ (opp, oppChan)) ∧
      heapBobCarol.chans[oppChan]? = some c ∧
      h'.chans[oppChan]? = some { c with buf := c.buf ++ [game] } ∧
      (∀ i, i < heapBobCarol.chans.length → i ≠ oppChan →
        h'.chans[i]? = heapBobCarol.chans[i]?) ∧
      game = NewGame "u1" (some alice) opp ∧ game.Players = [some alice, opp] ∧
      (∀ r k : Fin 3, game.Board.cell r k = "") ∧
      game.CurrentTurn = "X" ∧ game.Status = "in_progress" :=
  ⟨by decide, by decide, by decide,
    RequestMatch_pairing_step poolBobCarol heapBobCarol (some alice) "u1" 1
      (by decide) (by decide) (by decide)⟩

/-- C10, on the code: when the only waiting ticket is alice's own, her second
`RequestMatch` takes that ticket as the opponent: whichever entry the loop
meets first, the pairing step returns a session with alice in both seats and
leaves the pool empty; no ticket bound to the new channel is registered. -/
theorem RequestMatch_pairs_caller_with_own_ticket (pick : Nat) :
    poolAlice.RequestMatch_enter heapAlice (some alice) "u1" pick =
      some (MatchStep.paired (NewGame "u1" (some alice) (some alice)),
        { matchmaking := [] },
        { chans := [{ cap := 1, buf := [NewGame "u1" (some alice) (some alice)] },
                    { cap := 2, buf := [NewGame "u1" (some alice) (some alice)] }] }) ∧
    (NewGame "u1" (some alice) (some alice)).Players = [some alice, some alice] := by
  have hp : poolAlice.matchmaking[pick % poolAlice.matchmaking.length]? = some (some alice, 0) := by
    simp [poolAlice, Nat.mod_one]
  have hrun := requestMatch_enter_pick poolAlice heapAlice (some alice) "u1" pick (some alice) 0
    { cap := 1, buf := [] } hp (by decide) (by decide)
  rw [hrun]
  exact ⟨by decide, by decide⟩

/-! ## The claims on the end of a matchmaking wait -/

/-- A session handed out by the pairing step seats the caller first and, second,
a participant whose ticket was in the pool. -/
theorem requestMatch_enter_paired_inv (m : MatchmakingManager) (h : ChanHeap) (user : UserPtr)
    (gameID : String) (pick : Nat) (game : Game) (m' : MatchmakingManager) (h' : ChanHeap)
    (hrun : m.RequestMatch_enter h user gameID pick = some (MatchStep.paired game, m', h')) :
    ∃ (opp : UserPtr) (oppChan : Nat), (opp, oppChan) ∈ m.matchmaking ∧
      game = NewGame gameID user opp := by
  unfold MatchmakingManager.RequestMatch_enter at hrun
  simp only [ChanHeap.make] at hrun
  cases hp : m.matchmaking[pick % m.matchmaking.length]? with
  | none =>
    rw [hp] at hrun
    simp at hrun
  | some e =>
    obtain ⟨opp, oppChan⟩ := e
    rw [hp] at hrun
    refine ⟨opp, oppChan, List.getElem?_mem hp, ?_⟩
    simp only [Option.bind_eq_bind, Option.pure_def] at hrun
    cases h1 : ChanHeap.send { chans := h.chans ++ [{ cap := m.matchmaking.length + 1, buf := [] }] }
        h.chans.length (NewGame gameID user opp) with
    | none => rw [h1] at hrun; simp at hrun
    | some hh =>
      rw [h1] at hrun
      simp only [Option.some_bind] at hrun
      cases h2 : hh.send oppChan (NewGame gameID user opp) with
      | none => rw [h2] at hrun; simp at hrun
      | some hh2 =>
        rw [h2] at hrun
        simp only [Option.some_bind, Option.some.injEq, Prod.mk.injEq, MatchStep.paired.injEq] at hrun
        exact hrun.1.symm

/-- C11: when the pool (a map: no key twice) holds a waiting ticket of P, the
timeout case and the cancellation case of `RequestMatch` both leave the pool
equal to the previous pool minus that ticket, every other ticket in place and
the channels untouched; the timeout case returns no session and no error, the
cancellation case no session and the context's error; and no pairing step run
on the pool left behind hands out a session with P as the waiting side. -/
theorem RequestMatch_timeout_cancel (m : MatchmakingManager) (h : ChanHeap) (P : UserPtr)
    (ch matchChan : Nat) (ctxErr : String)
    (hk : m.KeysNodup) (hmem : (P, ch) ∈ m.matchmaking) :
    m.RequestMatch_select h P matchChan SelectCase.timeout =
      some ((none, none), { matchmaking := m.matchmaking.erase (P, ch) }, h) ∧
    m.RequestMatch_select h P matchChan (SelectCase.cancelled ctxErr) =
      some ((none, some ctxErr), { matchmaking := m.matchmaking.erase (P, ch) }, h) ∧
    (m.matchmaking.erase (P, ch)).length + 1 = m.matchmaking.length ∧
    (∀ e, e ∈ m.matchmaking.erase (P, ch) ↔ e ∈ m.matchmaking ∧ e ≠ (P, ch)) ∧
    (∀ c, (P, c) ∉ m.matchmaking.erase (P, ch)) ∧
    (∀ (h2 : ChanHeap) (caller : UserPtr) (gameID : String) (pick : Nat) (game : Game)
        (m2 : MatchmakingManager) (h3 : ChanHeap),
      MatchmakingManager.RequestMatch_enter { matchmaking := m.matchmaking.erase (P, ch) }
          h2 caller gameID pick = some (MatchStep.paired game, m2, h3) →
        ∃ opp, game.Players = [caller, opp] ∧ opp ≠ P) := by
  have hnd : m.matchmaking.Nodup := List.Nodup.of_map Prod.fst hk
  have herase := delete_eq_erase m P ch hk hmem
  have hdel : m.delete P = { matchmaking := m.matchmaking.erase (P, ch) } := by
    cases hm : m.delete P
    rw [hm] at herase
    simp only at herase
    rw [herase]
  have hgone : ∀ c, (P, c) ∉ m.matchmaking.erase (P, ch) := by
    intro c hc
    have hc' := (List.Nodup.mem_erase_iff hnd).mp hc
    have : (P, c) = (P, ch) := List.inj_on_of_nodup_map hk hc'.2 hmem rfl
    exact hc'.1 this
  refine ⟨by simp [MatchmakingManager.RequestMatch_select, hdel],
    by simp [MatchmakingManager.RequestMatch_select, hdel], ?_, ?_, hgone, ?_⟩
  · rw [List.length_erase_of_mem hmem]
    have := List.length_pos_of_mem hmem
    omega
  · intro e
    rw [List.Nodup.mem_erase_iff hnd]
    exact And.comm
  · intro h2 caller gameID pick game m2 h3 hrun
    obtain ⟨opp, oppChan, hin, hgame⟩ :=
      requestMatch_enter_paired_inv _ h2 caller gameID pick game m2 h3 hrun
    refine ⟨opp, by rw [hgame]; rfl, ?_⟩
    intro hopp
    rw [hopp] at hin
    exact hgone oppChan hin

theorem RequestMatch_timeout_cancel_witness :
    poolBobCarol.KeysNodup ∧ (some bob, 0) ∈ poolBobCarol.matchmaking ∧
    (poolBobCarol.RequestMatch_select heapBobCarol (some bob) 0 SelectCase.timeout =
      some ((none, none), { matchmaking := poolBobCarol.matchmaking.erase (some bob, 0) },
        heapBobCarol) ∧
    poolBobCarol.RequestMatch_select heapBobCarol (some bob) 0 (SelectCase.cancelled "context canceled") =
      some ((none, some "context canceled"),
        { matchmaking := poolBobCarol.matchmaking.erase (some bob, 0) }, heapBobCarol) ∧
    (poolBobCarol.matchmaking.erase (some bob, 0)).length + 1 = poolBobCarol.matchmaking.length ∧
    (∀ e, e ∈ poolBobCarol.matchmaking.erase (some bob, 0) ↔
      e ∈ poolBobCarol.matchmaking ∧ e ≠ (some bob, 0)) ∧
    (∀ c, (some bob, c) ∉ poolBobCarol.matchmaking.erase (some bob, 0)) ∧
    (∀ (h2 : ChanHeap) (caller : UserPtr) (gameID : String) (pick : Nat) (game : Game)
        (m2 : MatchmakingManager) (h3 : ChanHeap),
      MatchmakingManager.RequestMatch_enter
          { matchmaking := poolBobCarol.matchmaking.erase (some bob, 0) }
          h2 caller gameID pick = some (MatchStep.paired game, m2, h3) →
        ∃ opp, game.Players = [caller, opp] ∧ opp ≠ some bob)) :=
  ⟨by decide, by decide,
    RequestMatch_timeout_cancel poolBobCarol heapBobCarol (some bob) 0 0 "context canceled"
      (by decide) (by decide)⟩

/-! ## The invariant of a session in progress -/

theorem cell_put (b : Grid) (r c r' c' : Fin 3) (v : String) :
    (b.put r c v).cell r' c' = if r' = r ∧ c' = c then v else b.cell r' c' := by
  by_cases h : r' = r ∧ c' = c
  · rw [if_pos h, h.1, h.2, cell_put_same]
  · rw [if_neg h]
    apply cell_put_ne
    by_contra hcon
    simp only [not_or, not_not] at hcon
    exact h hcon

/-- Writing a mark into an empty cell adds one to the count of that mark and
leaves the count of every other mark alone. -/
theorem count_put (b : Grid) (r c : Fin 3) (v mark : String)
    (hcell : b.cell r c = "") (hmark : mark ≠ "") :
    (b.put r c v).count mark = b.count mark + (if v = mark then 1 else 0) := by
  have hne : ¬ ("" = mark) := fun h => hmark h.symm
  fin_cases r <;> fin_cases c <;>
    simp only [Grid.count, Grid.cells, cell_put, List.count_cons, List.count_nil, beq_iff_eq] <;>
    simp at hcell ⊢ <;>
    simp [hcell, hne] <;>
    omega

theorem empty_grid_facts :
    (∀ r c : Fin 3, Grid.empty.cell r c = "") ∧ Grid.empty.count "X" = 0 ∧
      Grid.empty.count "O" = 0 := by
  decide

theorem fresh_turnInv (g : Game) (h : g.Fresh) : g.TurnInv := by
  have hb : g.Board = Grid.empty ∧ g.CurrentTurn = "X" := by
    rcases h with ⟨gameID, p1, p2, rfl⟩ | ⟨m, now, p1, p2, rfl⟩
    · exact ⟨rfl, rfl⟩
    · exact ⟨rfl, rfl⟩
  obtain ⟨h1, h2, h3⟩ := empty_grid_facts
  unfold Game.TurnInv
  rw [hb.1, hb.2, h2, h3]
  refine ⟨Or.inl rfl, fun r c => Or.inl (h1 r c), fun _ => by simp, fun h => ?_⟩
  exact absurd h (by decide)

/-- The toggle branch of `UpdateGame` keeps the invariant. -/
theorem place_toggle_turnInv (g : Game) (r c : Fin 3) (hinv : g.TurnInv)
    (hcell : g.Board.cell r c = "") :
    Game.TurnInv { g.place r c with CurrentTurn := toggleTurn g.CurrentTurn } := by
  obtain ⟨hturn, hcells, hx, ho⟩ := hinv
  have hX : (g.Board.put r c g.CurrentTurn).count "X" =
      g.Board.count "X" + (if g.CurrentTurn = "X" then 1 else 0) :=
    count_put g.Board r c g.CurrentTurn "X" hcell (by decide)
  have hO : (g.Board.put r c g.CurrentTurn).count "O" =
      g.Board.count "O" + (if g.CurrentTurn = "O" then 1 else 0) :=
    count_put g.Board r c g.CurrentTurn "O" hcell (by decide)
  have hcells' : ∀ r' c' : Fin 3, (g.Board.put r c g.CurrentTurn).cell r' c' = "" ∨
      (g.Board.put r c g.CurrentTurn).cell r' c' = "X" ∨
      (g.Board.put r c g.CurrentTurn).cell r' c' = "O" := by
    intro r' c'
    rw [cell_put]
    by_cases hrc : r' = r ∧ c' = c
    · rw [if_pos hrc]
      exact Or.inr hturn
    · rw [if_neg hrc]
      exact hcells r' c'
  unfold Game.TurnInv
  show (toggleTurn g.CurrentTurn = "X" ∨ toggleTurn g.CurrentTurn = "O") ∧
    (∀ r' c' : Fin 3, (g.Board.put r c g.CurrentTurn).cell r' c' = "" ∨
      (g.Board.put r c g.CurrentTurn).cell r' c' = "X" ∨
      (g.Board.put r c g.CurrentTurn).cell r' c' = "O") ∧
    (toggleTurn g.CurrentTurn = "X" →
      ((g.Board.put r c g.CurrentTurn).count "X" : Int) -
        ((g.Board.put r c g.CurrentTurn).count "O" : Int) = 0) ∧
    (toggleTurn g.CurrentTurn = "O" →
      ((g.Board.put r c g.CurrentTurn).count "X" : Int) -
        ((g.Board.put r c g.CurrentTurn).count "O" : Int) = 1)
  rw [hX, hO]
  rcases hturn with e | e
  · have ht : toggleTurn g.CurrentTurn = "O" := by simp [toggleTurn, e]
    have h0 := hx e
    rw [ht, if_pos e, if_neg (by rw [e]; decide)]
    refine ⟨Or.inr rfl, hcells', fun h => absurd h (by decide), fun _ => ?_⟩
    push_cast
    omega
  · have ht : toggleTurn g.CurrentTurn = "X" := by simp [toggleTurn, e]
    have h1 := ho e
    rw [ht, if_pos e, if_neg (by rw [e]; decide)]
    refine ⟨Or.inl rfl, hcells', fun _ => ?_, fun h => absurd h (by decide)⟩
    push_cast
    omega

theorem updateGame_shape {m : GameManager} {gameID : String} {player : UserPtr}
    {row col : Int} {og : Option Game} {oe : Option String} {m' : GameManager}
    (h : m.UpdateGame gameID player row col = some ((og, oe), m')) :
    (og = none ∧ ∃ err, oe = some err) ∨ (oe = none ∧ ∃ g', og = some g') := by
  rcases updateGame_cases m gameID player row col with
    ⟨_, hr⟩ | ⟨_, _, _, hr⟩ | ⟨_, _, _, hr⟩ | ⟨_, _, _, _, hr⟩ |
    ⟨_, _, _, _, _, _, _, _, hr⟩ | ⟨_, _, _, _, _, _, _, _, _, _, hr⟩ |
    ⟨_, _, _, _, _, _, _, _, _, _, _, hr⟩ | ⟨_, _, _, _, _, _, _, _, _, _, hr⟩ |
    ⟨_, _, _, _, _, _, _, _, _, _, hr⟩ <;>
  rw [hr] at h <;> cases h <;>
  first
    | exact Or.inl ⟨rfl, _, rfl⟩
    | exact Or.inr ⟨rfl, _, rfl⟩

/-- One call of `UpdateGame`, on any id, keeps: the session under `gameID`, if
in progress, satisfies the invariant. -/
theorem updateGame_keeps_turnInv (m : GameManager) (gameID gid : String) (player : UserPtr)
    (row col : Int) (res : Option Game × Option String) (m' : GameManager)
    (hinv : ∀ g, m.lookup gameID = some g → g.Status = "in_progress" → g.TurnInv)
    (h : m.UpdateGame gid player row col = some (res, m')) :
    ∀ g, m'.lookup gameID = some g → g.Status = "in_progress" → g.TurnInv := by
  obtain ⟨og, oe⟩ := res
  rcases updateGame_shape h with ⟨_, err, rfl⟩ | ⟨rfl, g', rfl⟩
  · obtain ⟨_, hm, _⟩ := updateGame_err_inv h
    rw [hm]
    exact hinv
  · obtain ⟨g0, r, c, hl, _, _, _, hcell, hm', hbr⟩ := updateGame_ok_inv h
    intro g hg hs
    by_cases hid : gameID = gid
    · subst hid
      rw [hm', lookup_store_self m gameID g0 g' hl] at hg
      obtain rfl : g' = g := Option.some.inj hg
      rcases hbr with ⟨_, u, _, e⟩ | ⟨_, _, e⟩ | ⟨_, _, e⟩
      · rw [e] at hs
        have hs' : GameStateCompleted = "in_progress" := hs
        exact absurd hs' (by decide)
      · rw [e] at hs
        have hs' : GameStateCompleted = "in_progress" := hs
        exact absurd hs' (by decide)
      · rw [e] at hs ⊢
        exact place_toggle_turnInv g0 r c (hinv g0 hl hs) hcell
    · rw [hm', lookup_store_other m gid gameID g' hid] at hg
      exact hinv g hg hs

theorem play_keeps_turnInv (gameID : String) (calls : List (String × UserPtr × Int × Int)) :
    ∀ (m m' : GameManager),
      (∀ g, m.lookup gameID = some g → g.Status = "in_progress" → g.TurnInv) →
      m.play calls = some m' →
      ∀ g, m'.lookup gameID = some g → g.Status = "in_progress" → g.TurnInv := by
  induction calls with
  | nil =>
    intro m m' hinv hplay
    simp only [GameManager.play, Option.some.injEq] at hplay
    rw [← hplay]
    exact hinv
  | cons call rest ih =>
    intro m m' hinv hplay
    obtain ⟨gid, player, row, col⟩ := call
    simp only [GameManager.play] at hplay
    cases hstep : m.UpdateGame gid player row col with
    | none => rw [hstep] at hplay; simp at hplay
    | some out =>
      obtain ⟨res, m1⟩ := out
      rw [hstep] at hplay
      exact ih m1 m' (updateGame_keeps_turnInv m gameID gid player row col res m1 hinv hstep) hplay

/-- C15: take a directory holding under `gameID` a session fresh from `NewGame`
or `CreateGame`, and run any sequence of `UpdateGame` calls on it (any ids,
players and coordinates, accepted or rejected).  If the session under `gameID`
is then "in_progress", its CurrentTurn is "X" or "O", every cell is "", "X" or
"O", and the number of "X" cells minus the number of "O" cells is 0 when the
turn is "X" and 1 when it is "O". -/
theorem inProgress_session_invariant (m : GameManager) (gameID : String) (g0 : Game)
    (calls : List (String × UserPtr × Int × Int)) (m' : GameManager) (g : Game)
    (hfresh : g0.Fresh) (h0 : m.lookup gameID = some g0)
    (hplay : m.play calls = some m') (hg : m'.lookup gameID = some g)
    (hs : g.Status = "in_progress") :
    (g.CurrentTurn = "X" ∨ g.CurrentTurn = "O") ∧
    (∀ r c : Fin 3, g.Board.cell r c = "" ∨ g.Board.cell r c = "X" ∨ g.Board.cell r c = "O") ∧
    (g.CurrentTurn = "X" → (g.Board.count "X" : Int) - (g.Board.count "O" : Int) = 0) ∧
    (g.CurrentTurn = "O" → (g.Board.count "X" : Int) - (g.Board.count "O" : Int) = 1) := by
  have hinv : ∀ g, m.lookup gameID = some g → g.Status = "in_progress" → g.TurnInv := by
    intro g1 hg1 _
    rw [h0] at hg1
    obtain rfl : g0 = g1 := Option.some.inj hg1
    exact fresh_turnInv g0 hfresh
  exact play_keeps_turnInv gameID calls m m' hinv hplay g hg hs

theorem inProgress_session_invariant_witness :
    (NewGameManager.CreateGame 7 (some alice) (some bob)).1.Fresh ∧
    dirFresh.lookup "game_7" = some (NewGameManager.CreateGame 7 (some alice) (some bob)).1 ∧
    dirFresh.play movesOpening = some { games := [("game_7", gameOpening7)] } ∧
    GameManager.lookup { games := [("game_7", gameOpening7)] } "game_7" = some gameOpening7 ∧
    gameOpening7.Status = "in_progress" ∧
    ((gameOpening7.CurrentTurn = "X" ∨ gameOpening7.CurrentTurn = "O") ∧
    (∀ r c : Fin 3, gameOpening7.Board.cell r c = "" ∨ gameOpening7.Board.cell r c = "X" ∨
      gameOpening7.Board.cell r c = "O") ∧
    (gameOpening7.CurrentTurn = "X" →
      (gameOpening7.Board.count "X" : Int) - (gameOpening7.Board.count "O" : Int) = 0) ∧
    (gameOpening7.CurrentTurn = "O" →
      (gameOpening7.Board.count "X" : Int) - (gameOpening7.Board.count "O" : Int) = 1)) :=
  ⟨Or.inr ⟨NewGameManager, 7, some alice, some bob, rfl⟩, by decide, by decide, by decide,
    by decide,
    inProgress_session_invariant dirFresh "game_7"
      (NewGameManager.CreateGame 7 (some alice) (some bob)).1 movesOpening
      { games := [("game_7", gameOpening7)] } gameOpening7
      (Or.inr ⟨NewGameManager, 7, some alice, some bob, rfl⟩) (by decide) (by decide)
      (by decide) (by decide)⟩

/-! ## The claims on the dispatcher -/

/-- C12, on the code: alice is a player of the session "g1", in progress, and
sends a play request.  The session is notified again to both players, and
then `RequestMatch` runs all the same: with an empty pool a waiting ticket for
alice is registered, and with carol waiting a second session, alice against
carol, is made and stored next to "g1". -/
theorem play_while_in_session_enters_matchmaking :
    wsmPlaying.gameManager.lookup "g1" = some gameXXOO ∧
    gameXXOO.Players = [some alice, some bob] ∧ gameXXOO.Status = "in_progress" ∧
    wsmPlaying.handlePlay { chans := [] } 1 { Typ := "play", Username := "alice" } "u1" 0 =
      some ([(Sink.user alice, updateOf gameXXOO true), (Sink.user bob, updateOf gameXXOO false)],
        PlayStep.waiting (some alice) 0,
        { wsmPlaying with matchmakingManager := { matchmaking := [(some alice, 0)] } },
        { chans := [{ cap := 1, buf := [] }] }) ∧
    wsmPlaying.matchmakingManager.matchmaking = [] ∧
    wsmCarolWaits.handlePlay { chans := [{ cap := 1, buf := [] }] } 1
        { Typ := "play", Username := "alice" } "u1" 0 =
      some ([(Sink.user alice, updateOf gameXXOO true), (Sink.user bob, updateOf gameXXOO false),
          (Sink.user alice, gameStartOf "u1" "carol" "X" true),
          (Sink.user carol, gameStartOf "u1" "alice" "O" false)],
        PlayStep.done,
        { wsmPlaying with
          gameManager :=
            { games := [("g1", gameXXOO), ("u1", NewGame "u1" (some alice) (some carol))] } },
        { chans := [{ cap := 1, buf := [NewGame "u1" (some alice) (some carol)] },
                    { cap := 2, buf := [NewGame "u1" (some alice) (some carol)] }] }) := by
  decide

/-- When a player won, `notifyGameUpdate` ends with "win" for the winner and
"lose" for the other player, both naming the winner (two players of different
usernames). -/
theorem notifyGameUpdate_win_outcomes (game : Game) (u0 u1 : User)
    (hp : game.Players = [some u0, some u1]) (hne : u0.Username ≠ u1.Username)
    (hs : game.Status = "completed") :
    (game.Winner = u0.Username →
      ∃ updates, notifyGameUpdate game =
        some (updates ++ [(Sink.user u0, gameEndOf game.ID u0.Username "win"),
          (Sink.user u1, gameEndOf game.ID u0.Username "lose")])) ∧
    (game.Winner = u1.Username →
      ∃ updates, notifyGameUpdate game =
        some (updates ++ [(Sink.user u1, gameEndOf game.ID u1.Username "win"),
          (Sink.user u0, gameEndOf game.ID u1.Username "lose")])) := by
  have hloop : ∃ updates, notifyGameUpdate.loop game game.Players = some updates := by
    rw [hp]
    simp [notifyGameUpdate.loop, isPlayerCurrent_two game (some u0) (some u1) _ hp, SendMessage]
  obtain ⟨updates, hu⟩ := hloop
  rw [hp] at hu
  have hs' : game.Status = GameStateCompleted := hs
  constructor
  · intro hw
    refine ⟨updates, ?_⟩
    simp [notifyGameUpdate, hu, hs', hp, hw, sendGameEndWinPacket, sendGameEndLosePacket,
      SendMessage, gameEndOf]
  · intro hw
    have hw' : ¬ game.Winner = u0.Username := by
      rw [hw]
      exact fun h => hne h.symm
    refine ⟨updates, ?_⟩
    simp [notifyGameUpdate, hu, hs', hp, hw', sendGameEndWinPacket, sendGameEndLosePacket,
      SendMessage, gameEndOf]

/-- C13, on the code: for the session `gameLastCell_drawn`, completed with
Winner "draw", `notifyGameUpdate` sends bob, the second player, the outcome
"win" and alice, the first player, the outcome "lose", both naming bob as the
winner; no message with the outcome "draw" is sent. -/
theorem notifyGameUpdate_draw_sends_win_lose :
    gameLastCell_drawn.Status = "completed" ∧ gameLastCell_drawn.Winner = "draw" ∧
    gameLastCell_drawn.Players = [some alice, some bob] ∧
    notifyGameUpdate gameLastCell_drawn =
      some [(Sink.user alice, updateOf gameLastCell_drawn true),
        (Sink.user bob, updateOf gameLastCell_drawn false),
        (Sink.user bob, gameEndOf "g2" "bob" "win"),
        (Sink.user alice, gameEndOf "g2" "bob" "lose")] := by
  decide

/-- C14, as the code has it: a move on an unknown game and a move on an
occupied cell are rejected by `UpdateGame` for different reasons, and the
dispatcher answers both with the same error message. -/
theorem rejections_share_one_message :
    (wsmPlaying.gameManager.UpdateGame "nope" (some alice) 0 0).map Prod.fst =
      some (none, some "game not found") ∧
    (wsmPlaying.gameManager.UpdateGame "g1" (some alice) 0 0).map Prod.fst =
      some (none, some "cell already occupied") ∧
    "game not found" ≠ "cell already occupied" ∧
    wsmPlaying.handleMove 1 { Typ := "move", GameID := "nope", Row := 0, Col := 0 } =
      some ([(Sink.conn 1,
        Message.error { Typ := "error", Message := "Invalid move or not your turn" })],
        wsmPlaying) ∧
    wsmPlaying.handleMove 1 { Typ := "move", GameID := "g1", Row := 0, Col := 0 } =
      some ([(Sink.conn 1,
        Message.error { Typ := "error", Message := "Invalid move or not your turn" })],
        wsmPlaying) := by
  decide

/-- C14 (amended): for every move request of a registered connection that
`UpdateGame` rejects, whatever the reason, the dispatcher writes exactly one
message, to the requester's connection: the error packet with the fixed text
"Invalid move or not your turn"; and the manager is as before. -/
theorem handleMove_rejection (wsm : WebSocketManager) (conn : Nat) (packet : MovePacket)
    (c : Nat) (user : UserPtr) (res : Option Game) (err : String) (gm : GameManager)
    (hc : wsm.clients.find? (fun e => e.1 = conn) = some (c, user))
    (hu : wsm.gameManager.UpdateGame packet.GameID user packet.Row packet.Col =
      some ((res, some err), gm)) :
    wsm.handleMove conn packet =
      some ([(Sink.conn conn,
        Message.error { Typ := "error", Message := "Invalid move or not your turn" })], wsm) := by
  obtain ⟨_, hgm, _⟩ := updateGame_err_inv hu
  subst hgm
  simp [WebSocketManager.handleMove, hc, hu, sendError, ErrorPacketType]

theorem handleMove_rejection_witness :
    wsmPlaying.clients.find? (fun e => e.1 = 2) = some (2, some bob) ∧
    wsmPlaying.gameManager.UpdateGame "g1" (some bob) 2 2 =
      some ((none, some "not your turn"), wsmPlaying.gameManager) ∧
    wsmPlaying.handleMove 2 { Typ := "move", GameID := "g1", Row := 2, Col := 2 } =
      some ([(Sink.conn 2,
        Message.error { Typ := "error", Message := "Invalid move or not your turn" })],
        wsmPlaying) :=
  ⟨by decide, by decide,
    handleMove_rejection wsmPlaying 2 { Typ := "move", GameID := "g1", Row := 2, Col := 2 }
      2 (some bob) none "not your turn" wsmPlaying.gameManager (by decide) (by decide)⟩

end TicTacToe
